import Mathlib

/-!
Shallow embedding of the agentflow-distribution core (NestJS/Prisma services)
as pure Lean functions over an explicit database state.

Sources embedded here:
* `JobDistributorService` (createDistributionRecord, getDistributionDetail,
  updateResponseCount, selectBestAgentAndComplete, handleDistributionTimeout,
  calculateResultScore)
* `ExecutionTrackerService` (updateExecutionStatus, handleExecutionCompleted,
  handleExecutionFailed, handleTimeout, updateAgentPerformance)
* `AgentMatcherService` (calculateSkillMatch, calculateAvailabilityScore,
  calculateAgentScore)

Modelling conventions: JavaScript numbers are rationals (`ℚ`), timestamps are
natural numbers (milliseconds), nullable columns are `Option`, the Prisma
store is a record of lists, and `new Date()` is an explicit `now` argument.
JavaScript's `x || undefined` coercion (used when rows are converted to
`AgentExecutionResult` values) is modelled by `strOrUndef` / `numOrUndef`.
-/

/-- `AgentWorkStatus` enum from `prisma/schema.prisma`. -/
inductive AgentWorkStatus
  | IDLE | ASSIGNED | WORKING | COMPLETED | FAILED | CANCELLED | TIMEOUT
  deriving DecidableEq, Repr

/-- `JobStatus` enum from `prisma/schema.prisma`. -/
inductive JobStatus
  | OPEN | DISTRIBUTED | IN_PROGRESS | COMPLETED | CANCELLED | EXPIRED
  deriving DecidableEq, Repr

/-- The fields of the `Job` row used by the executer services. -/
structure Job where
  id : String
  jobTitle : String
  category : String
  skillLevel : String
  tags : List String
  maxBudget : Option ℚ
  status : JobStatus
  deriving DecidableEq, Repr

/-- The fields of the `Agent` row used by the executer services. -/
structure Agent where
  id : String
  agentName : String
  agentAddress : String
  agentClassification : String
  tags : List String
  isActive : Bool
  autoAcceptJobs : Bool
  reputation : ℚ
  successRate : ℚ
  totalJobsCompleted : Nat
  price : ℚ
  isFree : Bool
  deriving DecidableEq, Repr

/-- `MatchCriteria` from `interfaces/executer.interfaces.ts`. -/
structure MatchCriteria where
  tags : List String
  category : String
  skillLevel : String
  maxBudget : Option ℚ
  autoAcceptJobs : Bool
  isActive : Bool
  deriving DecidableEq, Repr

/-- `JobDistributionRecord` row.  The serialized `matchCriteria` JSON column is
kept as the structured value (serialization is injective on these fields). -/
structure JobDistributionRecord where
  id : Nat
  jobId : String
  jobName : String
  matchCriteria : MatchCriteria
  totalAgents : Nat
  assignedCount : Nat
  responseCount : Nat
  assignedAgentId : Option String
  assignedAgentName : Option String
  createdAt : Nat
  deriving DecidableEq, Repr

/-- `JobDistributionAgent` row (one per-agent leg of a distribution). -/
structure JobDistributionAgent where
  jobDistributionId : Nat
  agentId : String
  workStatus : AgentWorkStatus
  assignedAt : Nat
  startedAt : Option Nat
  completedAt : Option Nat
  progress : Option Nat
  executionResult : Option String
  errorMessage : Option String
  executionTimeMs : Option Int
  retryCount : Nat
  deriving DecidableEq, Repr

/-- `AgentPerformance` row. -/
structure AgentPerformance where
  agentId : String
  totalJobs : Nat
  completedJobs : Nat
  failedJobs : Nat
  avgExecutionTime : ℚ
  successRate : ℚ
  deriving DecidableEq, Repr

/-- `ExecutionLog` row (append-only audit trail). -/
structure ExecutionLog where
  jobId : String
  agentId : String
  eventType : AgentWorkStatus
  deriving DecidableEq, Repr

/-- The Prisma store: one list per table, plus a fresh-id counter standing in
for cuid generation on `JobDistributionRecord`. -/
structure DB where
  jobs : List Job
  agents : List Agent
  distributions : List JobDistributionRecord
  assignments : List JobDistributionAgent
  performances : List AgentPerformance
  logs : List ExecutionLog
  nextDistId : Nat
  deriving DecidableEq, Repr

/-- Error taxonomy: the services throw `Error(... not found)` when a row is
missing (Prisma `update` on a missing row behaves the same way). -/
inductive ExecError
  | NotFound
  deriving DecidableEq, Repr

/-- `AgentExecutionResult` from `interfaces/executer.interfaces.ts`. -/
structure AgentExecutionResult where
  agentId : String
  agentName : String
  distributionId : Nat
  workStatus : AgentWorkStatus
  executionResult : Option String
  executionTimeMs : Option Int
  startedAt : Option Nat
  completedAt : Option Nat
  errorMessage : Option String
  deriving DecidableEq, Repr

/-- `DistributionDetail` from `interfaces/executer.interfaces.ts`. -/
structure DistributionDetail where
  id : Nat
  jobId : String
  jobName : String
  totalAgents : Nat
  assignedCount : Nat
  responseCount : Nat
  assignedAgentId : Option String
  assignedAgentName : Option String
  createdAt : Nat
  agentExecutions : List AgentExecutionResult
  deriving DecidableEq, Repr

/-- JavaScript `s || undefined` for a nullable string column (empty string is
falsy). -/
def strOrUndef (o : Option String) : Option String :=
  match o with
  | some s => if s.length = 0 then none else some s
  | none => none

/-- JavaScript `n || undefined` for a nullable numeric column (`0` is falsy). -/
def numOrUndef (o : Option Int) : Option Int :=
  match o with
  | some t => if t = 0 then none else some t
  | none => none

/-- Conversion of a `JobDistributionAgent` row (with its included `agent`
relation) into an `AgentExecutionResult`, as done in
`getDistributionDetail` / `getActiveDistributions` / `getExecutionProgress`. -/
def toExecutionResult (agents : List Agent) (a : JobDistributionAgent) :
    AgentExecutionResult :=
  { agentId := a.agentId
    agentName := ((agents.find? (fun ag => ag.id == a.agentId)).map
      (fun ag => ag.agentName)).getD ""
    distributionId := a.jobDistributionId
    workStatus := a.workStatus
    executionResult := strOrUndef a.executionResult
    executionTimeMs := numOrUndef a.executionTimeMs
    startedAt := a.startedAt
    completedAt := a.completedAt
    errorMessage := strOrUndef a.errorMessage }

/-- The `agentExecutions` list of a distribution: its assignment rows joined
with the agent table. -/
def distributionExecs (did : Nat) (db : DB) : List AgentExecutionResult :=
  (db.assignments.filter (fun a => a.jobDistributionId == did)).map
    (toExecutionResult db.agents)

/-- `JobDistributorService.getDistributionDetail`. -/
def getDistributionDetail (did : Nat) (db : DB) : Option DistributionDetail :=
  (db.distributions.find? (fun r => r.id == did)).map (fun record =>
    { id := record.id
      jobId := record.jobId
      jobName := record.jobName
      totalAgents := record.totalAgents
      assignedCount := record.assignedCount
      responseCount := record.responseCount
      assignedAgentId := record.assignedAgentId
      assignedAgentName := record.assignedAgentName
      createdAt := record.createdAt
      agentExecutions := distributionExecs did db })

/-- `tx.job.update` with a status value: the per-row update function. -/
def setJobStatus (jobId : String) (st : JobStatus) (j : Job) : Job :=
  if j.id == jobId then { j with status := st } else j

/-- The `matchCriteria` snapshot built from the job at distribution-open
time. -/
def mkMatchCriteria (job : Job) : MatchCriteria :=
  { tags := job.tags
    category := job.category
    skillLevel := job.skillLevel
    maxBudget := job.maxBudget
    autoAcceptJobs := true
    isActive := true }

/-- The `JobDistributionRecord` row written at `tx.jobDistributionRecord.create`. -/
def mkDistRecord (jobId : String) (agents : List Agent) (now : Nat)
    (db : DB) (job : Job) : JobDistributionRecord :=
  { id := db.nextDistId
    jobId := jobId
    jobName := job.jobTitle
    matchCriteria := mkMatchCriteria job
    totalAgents := agents.length
    assignedCount := agents.length
    responseCount := 0
    assignedAgentId := none
    assignedAgentName := none
    createdAt := now }

/-- One row of the `tx.jobDistributionAgent.createMany` bulk insert. -/
def mkAssignmentRow (did : Nat) (now : Nat) (a : Agent) : JobDistributionAgent :=
  { jobDistributionId := did
    agentId := a.id
    workStatus := AgentWorkStatus.ASSIGNED
    assignedAt := now
    startedAt := none
    completedAt := none
    progress := none
    executionResult := none
    errorMessage := none
    executionTimeMs := none
    retryCount := 0 }

/-- `JobDistributorService.createDistributionRecord`: look up the job, then in
one transaction create the record, bulk-create one `ASSIGNED` assignment per
agent and set the job status to `DISTRIBUTED`.  Returns the thrown error and
the unchanged store when the job does not exist. -/
def createDistributionRecord (jobId : String) (agents : List Agent) (now : Nat)
    (db : DB) : Except ExecError JobDistributionRecord × DB :=
  match db.jobs.find? (fun j => j.id == jobId) with
  | none => (Except.error ExecError.NotFound, db)
  | some job =>
    (Except.ok (mkDistRecord jobId agents now db job),
      { db with
        distributions := db.distributions ++ [mkDistRecord jobId agents now db job]
        assignments := db.assignments ++ agents.map (mkAssignmentRow db.nextDistId now)
        jobs := db.jobs.map (setJobStatus jobId JobStatus.DISTRIBUTED)
        nextDistId := db.nextDistId + 1 })

/-- `JobDistributorService.updateResponseCount`: recount the assignments of the
distribution whose `workStatus` is in `WORKING/COMPLETED/FAILED` and persist
the count on the record. -/
def updateResponseCount (did : Nat) (db : DB) : Except ExecError Unit × DB :=
  let responseCount := (db.assignments.filter (fun a =>
    a.jobDistributionId == did &&
      (a.workStatus == AgentWorkStatus.WORKING ||
       a.workStatus == AgentWorkStatus.COMPLETED ||
       a.workStatus == AgentWorkStatus.FAILED))).length
  match db.distributions.find? (fun r => r.id == did) with
  | none => (Except.error ExecError.NotFound, db)
  | some _ =>
    (Except.ok (),
      { db with distributions := db.distributions.map (fun r =>
          if r.id == did then { r with responseCount := responseCount } else r) })

/-- `JobDistributorService.calculateResultScore`: completion base 100, a speed
bonus guarded by JavaScript truthiness of `executionTimeMs`, and a content
bonus guarded by a non-empty `executionResult`. -/
def calculateResultScore (e : AgentExecutionResult) : ℚ :=
  let base : ℚ := if e.workStatus == AgentWorkStatus.COMPLETED then 100 else 0
  let timeScore : ℚ :=
    match e.executionTimeMs with
    | some t => if t ≠ 0 then max 0 (50 - (t : ℚ) / 1000 / 60) else 0
    | none => 0
  let contentScore : ℚ :=
    match e.executionResult with
    | some r => if r.length > 0 then min 20 ((r.length : ℚ) / 100) else 0
    | none => 0
  base + timeScore + contentScore

/-- One step of a stable insertion sort by a rational key: the new element is
placed before the first strictly greater element, so that elements with equal
keys keep their original relative order (the stability JavaScript's
`Array.prototype.sort` guarantees). -/
def insertByKey (key : AgentExecutionResult → ℚ) (x : AgentExecutionResult) :
    List AgentExecutionResult → List AgentExecutionResult
  | [] => [x]
  | y :: ys =>
    if key x < key y then x :: y :: ys else y :: insertByKey key x ys

/-- Stable sort ascending by a rational key, embedding
`completedAgents.sort(comparator)`. -/
def sortByKey (key : AgentExecutionResult → ℚ) (l : List AgentExecutionResult) :
    List AgentExecutionResult :=
  l.foldl (fun acc x => insertByKey key x acc) []

/-- The two selection strategies of `selectBestAgentAndComplete`. -/
inductive SelectionStrategy
  | first_completed
  | best_scored
  deriving DecidableEq, Repr

/-- Sort key of the `first_completed` comparator:
`(a.completedAt?.getTime() || 0)`. -/
def completedAtKey (e : AgentExecutionResult) : ℚ :=
  ((e.completedAt.getD 0 : Nat) : ℚ)

/-- Winner choice of `selectBestAgentAndComplete`: sort the completed agents by
the strategy comparator and take the first element. -/
def selectWinner (strategy : SelectionStrategy)
    (completedAgents : List AgentExecutionResult) :
    Option AgentExecutionResult :=
  match strategy with
  | SelectionStrategy.first_completed =>
    (sortByKey completedAtKey completedAgents).head?
  | SelectionStrategy.best_scored =>
    (sortByKey (fun e => -calculateResultScore e) completedAgents).head?

/-- The record update of winner selection at `tx.jobDistributionRecord.update`. -/
def winStep (did : Nat) (w : AgentExecutionResult)
    (r : JobDistributionRecord) : JobDistributionRecord :=
  if r.id == did then
    { r with assignedAgentId := some w.agentId
             assignedAgentName := some w.agentName }
  else r

/-- The `tx.jobDistributionAgent.updateMany` of winner selection: every other
assignment of the distribution still in `ASSIGNED/WORKING` becomes `CANCELLED`
with a stamped `completedAt` and a standard message. -/
def cancelStep (did : Nat) (winnerId : String) (now : Nat)
    (a : JobDistributionAgent) : JobDistributionAgent :=
  if a.jobDistributionId == did && a.agentId != winnerId &&
      (a.workStatus == AgentWorkStatus.ASSIGNED ||
       a.workStatus == AgentWorkStatus.WORKING) then
    { a with workStatus := AgentWorkStatus.CANCELLED
             completedAt := some now
             errorMessage := some "Task completed by another agent" }
  else a

/-- `JobDistributorService.selectBestAgentAndComplete`. -/
def selectBestAgentAndComplete (did : Nat) (strategy : SelectionStrategy)
    (now : Nat) (db : DB) : Except ExecError Unit × DB :=
  match getDistributionDetail did db with
  | none => (Except.error ExecError.NotFound, db)
  | some record =>
    let completedAgents := record.agentExecutions.filter (fun e =>
      e.workStatus == AgentWorkStatus.COMPLETED)
    match selectWinner strategy completedAgents with
    | none => (Except.ok (), db)
    | some selectedAgent =>
      (Except.ok (),
        { db with
          distributions := db.distributions.map (winStep did selectedAgent)
          jobs := db.jobs.map (setJobStatus record.jobId JobStatus.COMPLETED)
          assignments := db.assignments.map
            (cancelStep did selectedAgent.agentId now) })

/-- The `tx.jobDistributionAgent.updateMany` of the timeout sweep: every
assignment of the distribution still in `ASSIGNED/WORKING` becomes `TIMEOUT`
with a stamped `completedAt` and a standard message. -/
def timeoutStep (did : Nat) (now : Nat) (a : JobDistributionAgent) :
    JobDistributionAgent :=
  if a.jobDistributionId == did &&
      (a.workStatus == AgentWorkStatus.ASSIGNED ||
       a.workStatus == AgentWorkStatus.WORKING) then
    { a with workStatus := AgentWorkStatus.TIMEOUT
             completedAt := some now
             errorMessage := some "Task execution timeout" }
  else a

/-- `JobDistributorService.handleDistributionTimeout`: time out the unfinished
assignments, then either resolve the distribution through
`selectBestAgentAndComplete` (when some assignment completed) or mark the job
`EXPIRED`. -/
def handleDistributionTimeout (did : Nat) (now : Nat) (db : DB) :
    Except ExecError Unit × DB :=
  match db.distributions.find? (fun r => r.id == did) with
  | none => (Except.error ExecError.NotFound, db)
  | some record =>
    let db1 : DB := { db with assignments := db.assignments.map (timeoutStep did now) }
    let hasCompleted := db1.assignments.any (fun a =>
      a.jobDistributionId == did && a.workStatus == AgentWorkStatus.COMPLETED)
    if hasCompleted then
      selectBestAgentAndComplete did SelectionStrategy.first_completed now db1
    else
      (Except.ok (),
        { db1 with jobs := db1.jobs.map (setJobStatus record.jobId JobStatus.EXPIRED) })

/-- `ExecutionStatusUpdate` from `interfaces/executer.interfaces.ts` (the
`distributionId`/`agentId` fields are the call arguments and are omitted). -/
structure ExecutionStatusUpdate where
  workStatus : AgentWorkStatus
  progress : Option Nat
  executionResult : Option String
  errorMessage : Option String
  executionTimeMs : Option Int
  deriving DecidableEq, Repr

/-- Whether a status is one of the four terminal states listed in
`updateExecutionStatus` when stamping `completedAt`. -/
def isTerminalStatus (st : AgentWorkStatus) : Bool :=
  st == AgentWorkStatus.COMPLETED || st == AgentWorkStatus.FAILED ||
    st == AgentWorkStatus.CANCELLED || st == AgentWorkStatus.TIMEOUT

/-- The per-row update built by `updateExecutionStatus`: `workStatus` is set
unconditionally, optional fields only when supplied, and `completedAt` is
stamped when the new status is terminal. -/
def applyStatusUpdate (now : Nat) (u : ExecutionStatusUpdate)
    (a : JobDistributionAgent) : JobDistributionAgent :=
  { a with
    workStatus := u.workStatus
    progress := match u.progress with | some p => some p | none => a.progress
    executionResult := match u.executionResult with
      | some r => some r | none => a.executionResult
    errorMessage := match u.errorMessage with
      | some m => some m | none => a.errorMessage
    executionTimeMs := match u.executionTimeMs with
      | some t => some t | none => a.executionTimeMs
    completedAt := if isTerminalStatus u.workStatus then some now else a.completedAt }

/-- `ExecutionTrackerService.logExecutionEvent`: best-effort append of an audit
row; silently skipped when the distribution is unknown. -/
def logExecutionEvent (did : Nat) (agentId : String)
    (eventType : AgentWorkStatus) (db : DB) : DB :=
  match db.distributions.find? (fun r => r.id == did) with
  | none => db
  | some record =>
    { db with logs := db.logs ++
        [{ jobId := record.jobId, agentId := agentId, eventType := eventType }] }

/-- `ExecutionTrackerService.updateExecutionStatus`: update the assignment row
identified by the composite key (Prisma `update` throws when it is missing),
then append an execution-log row. -/
def updateExecutionStatus (did : Nat) (agentId : String)
    (status : ExecutionStatusUpdate) (now : Nat) (db : DB) :
    Except ExecError Unit × DB :=
  if db.assignments.any (fun a =>
      a.jobDistributionId == did && a.agentId == agentId) then
    let db1 : DB := { db with assignments := db.assignments.map (fun a =>
      if a.jobDistributionId == did && a.agentId == agentId then
        applyStatusUpdate now status a
      else a) }
    (Except.ok (), logExecutionEvent did agentId status.workStatus db1)
  else
    (Except.error ExecError.NotFound, db)

/-- `ExecutionTrackerService.updateAgentPerformance`: upsert the per-agent
aggregate counters and mirror `totalJobsCompleted`/`successRate` onto the
agent row.  The running average over successes is only touched when
`executionTimeMs` is truthy and the outcome is a success. -/
def updateAgentPerformance (agentId : String) (isSuccess : Bool)
    (executionTimeMs : Option Int) (db : DB) : DB :=
  match db.performances.find? (fun p => p.agentId == agentId) with
  | some cur =>
    let totalJobs := cur.totalJobs + 1
    let completedJobs := if isSuccess then cur.completedJobs + 1 else cur.completedJobs
    let failedJobs := if isSuccess then cur.failedJobs else cur.failedJobs + 1
    let avgExecutionTime : ℚ :=
      match executionTimeMs with
      | some t =>
        if t != 0 && isSuccess then
          (cur.avgExecutionTime * (cur.completedJobs : ℚ) + (t : ℚ)) /
            (completedJobs : ℚ)
        else cur.avgExecutionTime
      | none => cur.avgExecutionTime
    let successRate : ℚ := (completedJobs : ℚ) / (totalJobs : ℚ)
    { db with
      performances := db.performances.map (fun p =>
        if p.agentId == agentId then
          { p with totalJobs := totalJobs
                   completedJobs := completedJobs
                   failedJobs := failedJobs
                   avgExecutionTime := avgExecutionTime
                   successRate := successRate }
        else p)
      agents := db.agents.map (fun ag =>
        if ag.id == agentId then
          { ag with totalJobsCompleted := completedJobs, successRate := successRate }
        else ag) }
  | none =>
    let completedJobs := if isSuccess then 1 else 0
    let failedJobs := if isSuccess then 0 else 1
    let avgExecutionTime : ℚ :=
      match executionTimeMs with
      | some t => if t != 0 && isSuccess then (t : ℚ) else 0
      | none => 0
    let successRate : ℚ := if isSuccess then 1 else 0
    { db with
      performances := db.performances ++
        [{ agentId := agentId
           totalJobs := 1
           completedJobs := completedJobs
           failedJobs := failedJobs
           avgExecutionTime := avgExecutionTime
           successRate := successRate }]
      agents := db.agents.map (fun ag =>
        if ag.id == agentId then
          { ag with totalJobsCompleted := completedJobs, successRate := successRate }
        else ag) }

/-- `ExecutionTrackerService.handleExecutionCompleted`: record the `COMPLETED`
transition, then update the agent's performance statistics as a success. -/
def handleExecutionCompleted (did : Nat) (agentId : String)
    (executionResult : String) (executionTimeMs : Option Int) (now : Nat)
    (db : DB) : Except ExecError Unit × DB :=
  let r := updateExecutionStatus did agentId
    { workStatus := AgentWorkStatus.COMPLETED
      progress := none
      executionResult := some executionResult
      errorMessage := none
      executionTimeMs := executionTimeMs } now db
  match r.1 with
  | Except.error e => (Except.error e, r.2)
  | Except.ok _ => (Except.ok (), updateAgentPerformance agentId true executionTimeMs r.2)

/-- `ExecutionTrackerService.handleExecutionFailed`: record the `FAILED`
transition, then update the agent's performance statistics as a failure. -/
def handleExecutionFailed (did : Nat) (agentId : String)
    (errorMessage : String) (executionTimeMs : Option Int) (now : Nat)
    (db : DB) : Except ExecError Unit × DB :=
  let r := updateExecutionStatus did agentId
    { workStatus := AgentWorkStatus.FAILED
      progress := none
      executionResult := none
      errorMessage := some errorMessage
      executionTimeMs := executionTimeMs } now db
  match r.1 with
  | Except.error e => (Except.error e, r.2)
  | Except.ok _ => (Except.ok (), updateAgentPerformance agentId false executionTimeMs r.2)

/-- `ExecutionTrackerService.handleTimeout` (per-agent): record the `TIMEOUT`
transition, then update the agent's performance statistics as a failure with
no execution time. -/
def handleTrackerTimeout (did : Nat) (agentId : String) (now : Nat) (db : DB) :
    Except ExecError Unit × DB :=
  let r := updateExecutionStatus did agentId
    { workStatus := AgentWorkStatus.TIMEOUT
      progress := none
      executionResult := none
      errorMessage := some "Task execution timeout"
      executionTimeMs := none } now db
  match r.1 with
  | Except.error e => (Except.error e, r.2)
  | Except.ok _ => (Except.ok (), updateAgentPerformance agentId false none r.2)

/-- ASCII lower-casing of one character, as `toLowerCase` does on the
classification strings appearing here. -/
def lowerChar (c : Char) : Char :=
  if 65 ≤ c.toNat ∧ c.toNat ≤ 90 then Char.ofNat (c.toNat + 32) else c

/-- JavaScript `s.toLowerCase()` (ASCII range). -/
def lowerString (s : String) : String := String.mk (s.data.map lowerChar)

/-- `AgentMatcherService.calculateSkillMatch`: distinct-tag overlap ratio plus
a level bonus of 0.2 for an exact (lower-cased) classification match, or 0.1
for the two hard-coded pairs, capped at 1. -/
def calculateSkillMatch (agent : Agent) (job : Job) : ℚ :=
  let jobTags := job.tags.dedup
  if jobTags.length = 0 then 1
  else
    let intersection := jobTags.filter (fun t => agent.tags.contains t)
    let matchRat : ℚ := (intersection.length : ℚ) / (jobTags.length : ℚ)
    let ac := lowerString agent.agentClassification
    let js := lowerString job.skillLevel
    let skillLevelBonus : ℚ :=
      if ac == js then 1/5
      else if (ac == "expert" && js == "intermediate") ||
          (ac == "intermediate" && js == "beginner") then 1/10
      else 0
    min (matchRat + skillLevelBonus) 1

/-- `AgentMatcherService.calculateAvailabilityScore`: the stepped score from
the count of the agent's assignments in the trailing seven days. -/
def availabilityScore (recentAssignments : Nat) : ℚ :=
  if recentAssignments = 0 then 1
  else if recentAssignments ≤ 3 then 4/5
  else if recentAssignments ≤ 6 then 3/5
  else if recentAssignments ≤ 10 then 2/5
  else 1/5

/-- The trailing-seven-day assignment count queried by
`calculateAvailabilityScore`. -/
def recentAssignmentCount (agentId : String) (now : Nat) (db : DB) : Nat :=
  (db.assignments.filter (fun a =>
    a.agentId == agentId &&
      decide (now - 7 * 24 * 60 * 60 * 1000 ≤ a.assignedAt))).length

/-- `AgentScore` from `interfaces/executer.interfaces.ts`. -/
structure AgentScore where
  agentId : String
  agentName : String
  agentAddress : String
  score : ℚ
  skillMatch : ℚ
  reputation : ℚ
  successRate : ℚ
  availability : ℚ
  deriving DecidableEq, Repr

/-- `AgentMatcherService.calculateAgentScore`: the weighted sum
0.35/0.25/0.25/0.15 of the four factors. -/
def calculateAgentScore (agent : Agent) (job : Job) (now : Nat) (db : DB) :
    AgentScore :=
  let skillMatch := calculateSkillMatch agent job
  let reputation : ℚ := min (agent.reputation / 5) 1
  let successRate : ℚ := agent.successRate
  let availability : ℚ := availabilityScore (recentAssignmentCount agent.id now db)
  { agentId := agent.id
    agentName := agent.agentName
    agentAddress := agent.agentAddress
    score := skillMatch * (35/100) + reputation * (25/100) +
      successRate * (25/100) + availability * (15/100)
    skillMatch := skillMatch
    reputation := reputation
    successRate := successRate
    availability := availability }

/-- The ordered skill scale named by the specification (and by
`isSkillLevelMatch` in the source). -/
def skillLevels : List String := ["beginner", "intermediate", "advanced", "expert"]

/-- The skill-match factor as the specification words it: tag ratio plus 0.2
for an exact level match, else 0.1 whenever the agent sits exactly one tier
above the job's level on the ordered scale, capped at 1.  This is the claim's
version, kept separate so it can be compared with `calculateSkillMatch`. -/
def specSkillMatch (agent : Agent) (job : Job) : ℚ :=
  let jobTags := job.tags.dedup
  if jobTags.length = 0 then 1
  else
    let intersection := jobTags.filter (fun t => agent.tags.contains t)
    let matchRat : ℚ := (intersection.length : ℚ) / (jobTags.length : ℚ)
    let ac := lowerString agent.agentClassification
    let js := lowerString job.skillLevel
    let oneTierAbove : Bool :=
      match skillLevels.indexOf? ac, skillLevels.indexOf? js with
      | some ia, some ij => ia == ij + 1
      | _, _ => false
    let skillLevelBonus : ℚ :=
      if ac == js then 1/5 else if oneTierAbove then 1/10 else 0
    min (matchRat + skillLevelBonus) 1


/-! ### Helper lemmas about the stable sort -/

/-- The first element with minimal key among `best :: l`: the value kept by a
left fold that replaces the current best only on a strictly smaller key. -/
def firstMinAux (key : AgentExecutionResult → ℚ) (best : AgentExecutionResult) :
    List AgentExecutionResult → AgentExecutionResult
  | [] => best
  | y :: ys => firstMinAux key (if key y < key best then y else best) ys

theorem head?_insertByKey (key : AgentExecutionResult → ℚ)
    (x y : AgentExecutionResult) (ys : List AgentExecutionResult) :
    (insertByKey key x (y :: ys)).head? =
      some (if key x < key y then x else y) := by
  by_cases h : key x < key y
  · simp [insertByKey, h]
  · simp [insertByKey, h]

theorem foldl_insert_head (key : AgentExecutionResult → ℚ) :
    ∀ (l acc : List AgentExecutionResult) (b : AgentExecutionResult),
      acc.head? = some b →
      (l.foldl (fun acc x => insertByKey key x acc) acc).head? =
        some (firstMinAux key b l) := by
  intro l
  induction l with
  | nil => intro acc b h; simpa [firstMinAux] using h
  | cons x xs ih =>
    intro acc b h
    cases acc with
    | nil => simp at h
    | cons b' rest =>
      simp only [List.head?_cons, Option.some.injEq] at h
      subst h
      simp only [List.foldl_cons, firstMinAux]
      exact ih (insertByKey key x (b' :: rest)) _ (head?_insertByKey key x b' rest)

theorem sortByKey_head (key : AgentExecutionResult → ℚ)
    (x : AgentExecutionResult) (l : List AgentExecutionResult) :
    (sortByKey key (x :: l)).head? = some (firstMinAux key x l) := by
  have h : (insertByKey key x []).head? = some x := rfl
  simpa only [sortByKey, List.foldl_cons] using foldl_insert_head key l (insertByKey key x []) x h

theorem firstMinAux_mem (key : AgentExecutionResult → ℚ) :
    ∀ (l : List AgentExecutionResult) (best : AgentExecutionResult),
      firstMinAux key best l ∈ best :: l := by
  intro l
  induction l with
  | nil => intro best; simp [firstMinAux]
  | cons y ys ih =>
    intro best
    simp only [firstMinAux]
    by_cases h : key y < key best
    · rw [if_pos h]
      exact List.mem_cons.mpr (Or.inr (ih y))
    · rw [if_neg h]
      rcases List.mem_cons.mp (ih best) with h1 | h1
      · rw [h1]; exact List.mem_cons_self best (y :: ys)
      · exact List.mem_cons.mpr (Or.inr (List.mem_cons.mpr (Or.inr h1)))

theorem firstMinAux_le (key : AgentExecutionResult → ℚ) :
    ∀ (l : List AgentExecutionResult) (best : AgentExecutionResult),
      key (firstMinAux key best l) ≤ key best ∧
        ∀ y ∈ l, key (firstMinAux key best l) ≤ key y := by
  intro l
  induction l with
  | nil => intro best; simp [firstMinAux]
  | cons y ys ih =>
    intro best
    simp only [firstMinAux]
    by_cases h : key y < key best
    · rw [if_pos h]
      obtain ⟨h1, h2⟩ := ih y
      refine ⟨le_of_lt (lt_of_le_of_lt h1 h), ?_⟩
      intro z hz
      rcases List.mem_cons.mp hz with hz | hz
      · exact hz ▸ h1
      · exact h2 z hz
    · rw [if_neg h]
      obtain ⟨h1, h2⟩ := ih best
      refine ⟨h1, ?_⟩
      intro z hz
      rcases List.mem_cons.mp hz with hz | hz
      · exact hz ▸ le_trans h1 (le_of_not_lt h)
      · exact h2 z hz

theorem firstMinAux_first (key : AgentExecutionResult → ℚ) :
    ∀ (l : List AgentExecutionResult) (best : AgentExecutionResult),
      ∃ l₁ l₂, best :: l = l₁ ++ firstMinAux key best l :: l₂ ∧
        ∀ y ∈ l₁, key (firstMinAux key best l) < key y := by
  intro l
  induction l with
  | nil => intro best; exact ⟨[], [], rfl, by simp⟩
  | cons y ys ih =>
    intro best
    simp only [firstMinAux]
    by_cases h : key y < key best
    · rw [if_pos h]
      obtain ⟨l₁, l₂, hsplit, hlt⟩ := ih y
      refine ⟨best :: l₁, l₂, ?_, ?_⟩
      · rw [List.cons_append, ← hsplit]
      · intro z hz
        rcases List.mem_cons.mp hz with hz | hz
        · have hle : key (firstMinAux key y ys) ≤ key y := (firstMinAux_le key ys y).1
          exact hz ▸ lt_of_le_of_lt hle h
        · exact hlt z hz
    · rw [if_neg h]
      obtain ⟨l₁, l₂, hsplit, hlt⟩ := ih best
      cases l₁ with
      | nil =>
        simp only [List.nil_append] at hsplit
        refine ⟨[], y :: ys, ?_, by simp⟩
        have hbest : firstMinAux key best ys = best := (List.cons.injEq _ _ _ _).mp hsplit |>.1.symm
        rw [hbest]
        rfl
      | cons p l₁' =>
        simp only [List.cons_append, List.cons.injEq] at hsplit
        obtain ⟨hp, hys⟩ := hsplit
        refine ⟨best :: y :: l₁', l₂, ?_, ?_⟩
        · rw [List.cons_append, List.cons_append, ← hys]
        · intro z hz
          have hbestlt : key (firstMinAux key best ys) < key best := by
            have := hlt p (List.mem_cons_self p l₁')
            exact hp ▸ this
          rcases List.mem_cons.mp hz with hz | hz
          · exact hz ▸ hbestlt
          · rcases List.mem_cons.mp hz with hz | hz
            · exact hz ▸ lt_of_lt_of_le hbestlt (le_of_not_lt h)
            · exact hlt z (List.mem_cons.mpr (Or.inr hz))

/-- Full characterization of the head of the stable sort on a non-empty list:
it is the first element attaining the minimal key. -/
theorem sortByKey_head_spec (key : AgentExecutionResult → ℚ)
    (l : List AgentExecutionResult) (hne : l ≠ []) :
    ∃ w, (sortByKey key l).head? = some w ∧ w ∈ l ∧
      (∀ e ∈ l, key w ≤ key e) ∧
      ∃ l₁ l₂, l = l₁ ++ w :: l₂ ∧ ∀ e ∈ l₁, key w < key e := by
  cases l with
  | nil => exact absurd rfl hne
  | cons x xs =>
    refine ⟨firstMinAux key x xs, sortByKey_head key x xs, firstMinAux_mem key xs x, ?_, ?_⟩
    · intro e he
      obtain ⟨h1, h2⟩ := firstMinAux_le key xs x
      rcases List.mem_cons.mp he with he | he
      · exact he ▸ h1
      · exact h2 e he
    · exact firstMinAux_first key xs x

/-! ### Helper lemmas about idempotent row updates -/

theorem map_map_self {α : Type} (l : List α) (f g : α → α)
    (h : ∀ a, g (f a) = f a) : (l.map f).map g = l.map f := by
  rw [List.map_map]
  exact List.map_congr_left (fun a _ => h a)

theorem timeoutStep_after_timeoutStep (did now1 now2 : Nat)
    (a : JobDistributionAgent) :
    timeoutStep did now2 (timeoutStep did now1 a) = timeoutStep did now1 a := by
  unfold timeoutStep
  by_cases h : (a.jobDistributionId == did &&
      (a.workStatus == AgentWorkStatus.ASSIGNED ||
        a.workStatus == AgentWorkStatus.WORKING)) = true
  · rw [if_pos h]; simp
  · rw [if_neg h, if_neg h]

theorem cancelStep_after_timeoutStep (did : Nat) (wid : String) (now1 now2 : Nat)
    (a : JobDistributionAgent) :
    cancelStep did wid now2 (timeoutStep did now1 a) = timeoutStep did now1 a := by
  unfold timeoutStep cancelStep
  by_cases h : (a.jobDistributionId == did &&
      (a.workStatus == AgentWorkStatus.ASSIGNED ||
        a.workStatus == AgentWorkStatus.WORKING)) = true
  · rw [if_pos h]; simp
  · rw [if_neg h]
    rw [if_neg ?_]
    simp only [Bool.and_eq_true, Bool.or_eq_true] at h ⊢
    intro hcon
    exact h ⟨hcon.1.1, hcon.2⟩

theorem winStep_id_eq (did : Nat) (w : AgentExecutionResult)
    (r : JobDistributionRecord) : (winStep did w r).id = r.id := by
  unfold winStep
  by_cases h : (r.id == did) = true
  · rw [if_pos h]
  · rw [if_neg h]

theorem winStep_jobId_eq (did : Nat) (w : AgentExecutionResult)
    (r : JobDistributionRecord) : (winStep did w r).jobId = r.jobId := by
  unfold winStep
  by_cases h : (r.id == did) = true
  · rw [if_pos h]
  · rw [if_neg h]

theorem winStep_after_winStep (did : Nat) (w : AgentExecutionResult)
    (r : JobDistributionRecord) :
    winStep did w (winStep did w r) = winStep did w r := by
  unfold winStep
  by_cases h : (r.id == did) = true
  · rw [if_pos h]; simp [h]
  · rw [if_neg h, if_neg h]

theorem setJobStatus_after_setJobStatus (jid : String) (st : JobStatus) (j : Job) :
    setJobStatus jid st (setJobStatus jid st j) = setJobStatus jid st j := by
  unfold setJobStatus
  by_cases h : (j.id == jid) = true
  · rw [if_pos h]; simp [h]
  · rw [if_neg h, if_neg h]

/-! ### C7: the skill-match factor -/

/-- Concrete agent one tier above the job's level: classification `advanced`
against a job requiring `intermediate`, sharing one of the job's two tags. -/
def agentC7 : Agent :=
  { id := "a1"
    agentName := "Adv"
    agentAddress := "addr"
    agentClassification := "advanced"
    tags := ["a"]
    isActive := true
    autoAcceptJobs := true
    reputation := 0
    successRate := 0
    totalJobsCompleted := 0
    price := 0
    isFree := false }

/-- The job used against `agentC7`. -/
def jobC7 : Job :=
  { id := "j1"
    jobTitle := "T"
    category := "c"
    skillLevel := "intermediate"
    tags := ["a", "b"]
    maxBudget := none
    status := JobStatus.OPEN }

/-- C7 counterexample: for an `advanced` agent on an `intermediate` job (one
tier above on the ordered scale) the code pays no bonus, while the claimed
formula (`specSkillMatch`, the claim's wording) pays 0.10: with tag ratio 1/2
the code returns 1/2, the claim demands 3/5. -/
theorem C7_counterexample :
    calculateSkillMatch agentC7 jobC7 = 1/2 ∧
    specSkillMatch agentC7 jobC7 = 3/5 ∧ ((1 : ℚ)/2) ≠ 3/5 := by
  refine ⟨?_, ?_, by norm_num⟩
  · simp only [calculateSkillMatch, agentC7, jobC7]
    rw [show (["a", "b"] : List String).dedup = ["a", "b"] from by decide]
    rw [if_neg (by decide)]
    rw [show List.filter (fun t => (["a"] : List String).contains t)
      (["a", "b"] : List String) = ["a"] from by decide]
    rw [if_neg (by decide), if_neg (by decide)]
    norm_num [min_def]
  · simp only [specSkillMatch, agentC7, jobC7]
    rw [show (["a", "b"] : List String).dedup = ["a", "b"] from by decide]
    rw [if_neg (by decide)]
    rw [show List.filter (fun t => (["a"] : List String).contains t)
      (["a", "b"] : List String) = ["a"] from by decide]
    rw [if_neg (by decide), if_pos (by decide)]
    norm_num [min_def]

/-- The level bonus the code actually pays: 0.2 on an exact lower-cased match,
0.1 exactly for the pairs (expert, intermediate) and (intermediate, beginner). -/
def levelBonus (agentClassification jobSkillLevel : String) : ℚ :=
  let ac := lowerString agentClassification
  let js := lowerString jobSkillLevel
  if ac == js then 1/5
  else if (ac == "expert" && js == "intermediate") ||
      (ac == "intermediate" && js == "beginner") then 1/10
  else 0

/-- C7 amended: skillMatch is the distinct-tag-intersection size over the
job's distinct tag count (or 1.0 for a tagless job) plus a bonus of 0.20 on an
exact classification match, else 0.10 exactly for the two hard-coded pairs
(expert, intermediate) and (intermediate, beginner) — not for every
one-tier-above pair — capped at 1.0. -/
theorem C7_skill_match_amended (agent : Agent) (job : Job) :
    (job.tags = [] → calculateSkillMatch agent job = 1) ∧
    (job.tags ≠ [] → calculateSkillMatch agent job =
      min ((((job.tags.toFinset ∩ agent.tags.toFinset).card : ℚ) /
            ((job.tags.toFinset.card : ℚ))) +
        levelBonus agent.agentClassification job.skillLevel) 1) := by
  constructor
  · intro h
    simp [calculateSkillMatch, h]
  · intro h
    have hd : job.tags.dedup ≠ [] := fun hc => h ((List.dedup_eq_nil _).mp hc)
    have hlen : ¬ job.tags.dedup.length = 0 :=
      fun hc => hd (List.length_eq_zero.mp hc)
    have hcard : job.tags.toFinset.card = job.tags.dedup.length :=
      List.card_toFinset job.tags
    have hinter : (job.tags.dedup.filter (fun t => agent.tags.contains t)).length =
        (job.tags.toFinset ∩ agent.tags.toFinset).card := by
      rw [← List.toFinset_card_of_nodup ((job.tags.nodup_dedup).filter _)]
      congr 1
      ext t
      simp [List.mem_filter, Finset.mem_inter, List.mem_dedup]
    simp only [calculateSkillMatch, levelBonus, if_neg hlen]
    rw [hinter, hcard]

/-- C7 witness: the amended statement applied to the concrete agent and job of
the counterexample (tag ratio 1/2, bonus 0). -/
theorem C7_skill_match_witness :
    calculateSkillMatch agentC7 jobC7 =
      min ((((jobC7.tags.toFinset ∩ agentC7.tags.toFinset).card : ℚ) /
            ((jobC7.tags.toFinset.card : ℚ))) +
        levelBonus agentC7.agentClassification jobC7.skillLevel) 1 :=
  (C7_skill_match_amended agentC7 jobC7).2 (by decide)

/-! ### C8: the response count -/

/-- The distribution record of the C8 store. -/
def recC8 : JobDistributionRecord :=
  { id := 0
    jobId := "j"
    jobName := "J"
    matchCriteria := { tags := []
                       category := "c"
                       skillLevel := "s"
                       maxBudget := none
                       autoAcceptJobs := true
                       isActive := true }
    totalAgents := 1
    assignedCount := 1
    responseCount := 7
    assignedAgentId := none
    assignedAgentName := none
    createdAt := 0 }

/-- A store with one distribution and a single `CANCELLED` assignment. -/
def dbC8 : DB :=
  { jobs := []
    agents := []
    distributions := [recC8]
    assignments := [{ jobDistributionId := 0
                      agentId := "a"
                      workStatus := AgentWorkStatus.CANCELLED
                      assignedAt := 0
                      startedAt := none
                      completedAt := some 3
                      progress := none
                      executionResult := none
                      errorMessage := none
                      executionTimeMs := none
                      retryCount := 0 }]
    performances := []
    logs := []
    nextDistId := 1 }

/-- C8 counterexample: the single assignment of the distribution is
`CANCELLED` — it has left `ASSIGNED`, so the claim demands `responseCount = 1`
— yet `updateResponseCount` persists `responseCount = 0`, because the query
counts only `WORKING/COMPLETED/FAILED`. -/
theorem C8_counterexample :
    ((updateResponseCount 0 dbC8).2.distributions.map (fun r => r.responseCount)) = [0] ∧
    (dbC8.assignments.filter (fun a => a.jobDistributionId == 0 &&
      !(a.workStatus == AgentWorkStatus.ASSIGNED))).length = 1 ∧
    (0 : Nat) ≠ 1 := by
  refine ⟨by decide, by decide, by norm_num⟩

/-- C8 amended: after `updateResponseCount`, the record's `responseCount`
equals the number of the distribution's assignments whose status is neither
`ASSIGNED` nor `IDLE` nor `CANCELLED` nor `TIMEOUT` (i.e. exactly those in
`WORKING/COMPLETED/FAILED`): assignments in `CANCELLED` or `TIMEOUT` do NOT
count towards the response count. -/
theorem C8_response_count_amended (did : Nat) (db : DB)
    (record : JobDistributionRecord)
    (hfind : db.distributions.find? (fun r => r.id == did) = some record) :
    ∃ db', updateResponseCount did db = (Except.ok (), db') ∧
      ∀ r ∈ db.distributions, r.id = did →
        ({ r with responseCount := (db.assignments.filter (fun a =>
            a.jobDistributionId == did &&
            !(a.workStatus == AgentWorkStatus.ASSIGNED) &&
            !(a.workStatus == AgentWorkStatus.IDLE) &&
            !(a.workStatus == AgentWorkStatus.CANCELLED) &&
            !(a.workStatus == AgentWorkStatus.TIMEOUT))).length }
          ∈ db'.distributions) := by
  have hpred : ∀ a : JobDistributionAgent,
      (a.jobDistributionId == did &&
        (a.workStatus == AgentWorkStatus.WORKING ||
         a.workStatus == AgentWorkStatus.COMPLETED ||
         a.workStatus == AgentWorkStatus.FAILED)) =
      (a.jobDistributionId == did &&
        !(a.workStatus == AgentWorkStatus.ASSIGNED) &&
        !(a.workStatus == AgentWorkStatus.IDLE) &&
        !(a.workStatus == AgentWorkStatus.CANCELLED) &&
        !(a.workStatus == AgentWorkStatus.TIMEOUT)) := by
    intro a
    cases h : a.workStatus <;>
      cases hd : (a.jobDistributionId == did) <;> decide
  have hcongr : db.assignments.filter (fun a =>
      a.jobDistributionId == did &&
        (a.workStatus == AgentWorkStatus.WORKING ||
         a.workStatus == AgentWorkStatus.COMPLETED ||
         a.workStatus == AgentWorkStatus.FAILED)) =
      db.assignments.filter (fun a =>
      a.jobDistributionId == did &&
        !(a.workStatus == AgentWorkStatus.ASSIGNED) &&
        !(a.workStatus == AgentWorkStatus.IDLE) &&
        !(a.workStatus == AgentWorkStatus.CANCELLED) &&
        !(a.workStatus == AgentWorkStatus.TIMEOUT)) :=
    List.filter_congr (fun a _ => hpred a)
  refine ⟨{ db with distributions := db.distributions.map (fun r =>
      if r.id == did then
        { r with responseCount := (db.assignments.filter (fun a =>
            a.jobDistributionId == did &&
              (a.workStatus == AgentWorkStatus.WORKING ||
               a.workStatus == AgentWorkStatus.COMPLETED ||
               a.workStatus == AgentWorkStatus.FAILED))).length }
      else r) }, ?_, ?_⟩
  · simp only [updateResponseCount, hfind]
  · intro r hr hid
    simp only [updateResponseCount, hfind, ← hcongr]
    have heq : (fun x : JobDistributionRecord => if x.id == did then
        { x with responseCount := (db.assignments.filter (fun a =>
          a.jobDistributionId == did &&
            (a.workStatus == AgentWorkStatus.WORKING ||
             a.workStatus == AgentWorkStatus.COMPLETED ||
             a.workStatus == AgentWorkStatus.FAILED))).length } else x) r =
        { r with responseCount := (db.assignments.filter (fun a =>
          a.jobDistributionId == did &&
            (a.workStatus == AgentWorkStatus.WORKING ||
             a.workStatus == AgentWorkStatus.COMPLETED ||
             a.workStatus == AgentWorkStatus.FAILED))).length } := by
      simp [hid]
    exact heq ▸ List.mem_map_of_mem _ hr

/-- C8 witness: the amended statement applied to the concrete store of the
counterexample. -/
theorem C8_response_count_witness :
    ∃ db', updateResponseCount 0 dbC8 = (Except.ok (), db') ∧
      ∀ r ∈ dbC8.distributions, r.id = 0 →
        ({ r with responseCount := (dbC8.assignments.filter (fun a =>
            a.jobDistributionId == 0 &&
            !(a.workStatus == AgentWorkStatus.ASSIGNED) &&
            !(a.workStatus == AgentWorkStatus.IDLE) &&
            !(a.workStatus == AgentWorkStatus.CANCELLED) &&
            !(a.workStatus == AgentWorkStatus.TIMEOUT))).length }
          ∈ db'.distributions) :=
  C8_response_count_amended 0 dbC8 recC8 (by decide)

/-! ### C3: terminal assignments are not protected -/

theorem logExecutionEvent_assignments (did : Nat) (aid : String)
    (ev : AgentWorkStatus) (db : DB) :
    (logExecutionEvent did aid ev db).assignments = db.assignments := by
  unfold logExecutionEvent
  cases db.distributions.find? (fun r => r.id == did) <;> rfl

theorem logExecutionEvent_performances (did : Nat) (aid : String)
    (ev : AgentWorkStatus) (db : DB) :
    (logExecutionEvent did aid ev db).performances = db.performances := by
  unfold logExecutionEvent
  cases db.distributions.find? (fun r => r.id == did) <;> rfl

/-- The distribution record of the C3 store. -/
def recC3 : JobDistributionRecord :=
  { recC8 with jobId := "j3" }

/-- A store whose single assignment is already terminal (`CANCELLED`). -/
def dbC3 : DB :=
  { jobs := []
    agents := []
    distributions := [recC3]
    assignments := [{ jobDistributionId := 0
                      agentId := "a"
                      workStatus := AgentWorkStatus.CANCELLED
                      assignedAt := 0
                      startedAt := none
                      completedAt := some 5
                      progress := none
                      executionResult := some "old"
                      errorMessage := some "Task completed by another agent"
                      executionTimeMs := none
                      retryCount := 0 }]
    performances := []
    logs := []
    nextDistId := 1 }

/-- The late status update arriving for the cancelled assignment. -/
def updC3 : ExecutionStatusUpdate :=
  { workStatus := AgentWorkStatus.WORKING
    progress := some 50
    executionResult := some "new"
    errorMessage := none
    executionTimeMs := none }

/-- C3 counterexample: the assignment is already `CANCELLED`, yet a late
status update overwrites `workStatus` and `executionResult`, and a late result
submission overwrites them again and restamps `completedAt` — the tracker is
not a no-op on terminal assignments. -/
theorem C3_counterexample :
    (dbC3.assignments.map (fun a => a.workStatus) = [AgentWorkStatus.CANCELLED]) ∧
    ((updateExecutionStatus 0 "a" updC3 99 dbC3).2.assignments.map
      (fun a => (a.workStatus, a.executionResult)) =
        [(AgentWorkStatus.WORKING, some "new")]) ∧
    ((handleExecutionCompleted 0 "a" "late" (some 42) 99 dbC3).2.assignments.map
      (fun a => (a.workStatus, a.executionResult, a.completedAt)) =
        [(AgentWorkStatus.COMPLETED, some "late", some 99)]) := by
  refine ⟨by decide, by decide, by decide⟩

/-- C3 amended: `updateExecutionStatus` has no terminal-state guard — whenever
the composite key exists it applies the update unconditionally, even to an
assignment already in a terminal state (`COMPLETED/FAILED/CANCELLED/TIMEOUT`):
the row's `workStatus` becomes the update's status, and when that status is
terminal, `completedAt` is restamped to the current time. -/
theorem C3_terminal_not_guarded (did : Nat) (aid : String)
    (u : ExecutionStatusUpdate) (now : Nat) (db : DB)
    (hmem : ∃ a ∈ db.assignments, a.jobDistributionId = did ∧ a.agentId = aid) :
    ∃ db', updateExecutionStatus did aid u now db = (Except.ok (), db') ∧
      db'.assignments.length = db.assignments.length ∧
      ∀ a ∈ db.assignments, a.jobDistributionId = did → a.agentId = aid →
        isTerminalStatus a.workStatus = true →
        applyStatusUpdate now u a ∈ db'.assignments ∧
        (applyStatusUpdate now u a).workStatus = u.workStatus ∧
        (isTerminalStatus u.workStatus = true →
          (applyStatusUpdate now u a).completedAt = some now) := by
  obtain ⟨a0, ha0, hd0, hi0⟩ := hmem
  have hany : db.assignments.any (fun a =>
      a.jobDistributionId == did && a.agentId == aid) = true := by
    rw [List.any_eq_true]
    exact ⟨a0, ha0, by simp [hd0, hi0]⟩
  refine ⟨logExecutionEvent did aid u.workStatus
    { db with assignments := db.assignments.map (fun a =>
        if a.jobDistributionId == did && a.agentId == aid then
          applyStatusUpdate now u a
        else a) }, ?_, ?_, ?_⟩
  · simp only [updateExecutionStatus, if_pos hany]
  · rw [logExecutionEvent_assignments]
    exact List.length_map _ _
  · intro a ha hd hi _
    refine ⟨?_, rfl, ?_⟩
    · rw [logExecutionEvent_assignments]
      have : (fun x : JobDistributionAgent =>
          if x.jobDistributionId == did && x.agentId == aid then
            applyStatusUpdate now u x else x) a = applyStatusUpdate now u a := by
        simp [hd, hi]
      exact this ▸ List.mem_map_of_mem _ ha
    · intro hterm
      simp [applyStatusUpdate, hterm]

/-- C3 witness: the amended statement applied to the concrete cancelled
assignment of the counterexample. -/
theorem C3_terminal_not_guarded_witness :
    ∃ db', updateExecutionStatus 0 "a" updC3 99 dbC3 = (Except.ok (), db') ∧
      db'.assignments.length = dbC3.assignments.length ∧
      ∀ a ∈ dbC3.assignments, a.jobDistributionId = 0 → a.agentId = "a" →
        isTerminalStatus a.workStatus = true →
        applyStatusUpdate 99 updC3 a ∈ db'.assignments ∧
        (applyStatusUpdate 99 updC3 a).workStatus = updC3.workStatus ∧
        (isTerminalStatus updC3.workStatus = true →
          (applyStatusUpdate 99 updC3 a).completedAt = some 99) :=
  C3_terminal_not_guarded 0 "a" updC3 99 dbC3 (by decide)

/-! ### C10: the composite suitability score -/

/-- An agent whose stored `successRate` is 2 (out of range): full tag match,
exact classification match, maximal reputation. -/
def agentC10 : Agent :=
  { id := "x"
    agentName := "X"
    agentAddress := "addr"
    agentClassification := "intermediate"
    tags := ["a", "b"]
    isActive := true
    autoAcceptJobs := true
    reputation := 5
    successRate := 2
    totalJobsCompleted := 0
    price := 0
    isFree := false }

/-- The job scored against `agentC10` (and, in the witness, `agentC10w`). -/
def jobC10 : Job :=
  { id := "j10"
    jobTitle := "T"
    category := "c"
    skillLevel := "intermediate"
    tags := ["a", "b"]
    maxBudget := none
    status := JobStatus.OPEN }

/-- An empty store: the availability factor is 1 (no recent assignments). -/
def dbC10 : DB :=
  { jobs := []
    agents := []
    distributions := []
    assignments := []
    performances := []
    logs := []
    nextDistId := 0 }

/-- C10 counterexample: with stored `successRate = 2` the composite score is
0.35 + 0.25 + 0.5 + 0.15 = 1.25 > 1 — the scorer does not clamp the stored
success rate, so the score is not confined to `[0, 1]`. -/
theorem C10_counterexample :
    1 < (calculateAgentScore agentC10 jobC10 0 dbC10).score := by
  have hsm : calculateSkillMatch agentC10 jobC10 = 1 := by
    simp only [calculateSkillMatch, agentC10, jobC10]
    rw [show (["a", "b"] : List String).dedup = ["a", "b"] from by decide]
    rw [if_neg (by decide)]
    rw [show List.filter (fun t => (["a", "b"] : List String).contains t)
      (["a", "b"] : List String) = ["a", "b"] from by decide]
    rw [if_pos (by decide)]
    norm_num [min_def]
  have hav : recentAssignmentCount agentC10.id 0 dbC10 = 0 := by decide
  simp only [calculateAgentScore]
  rw [hsm, hav]
  norm_num [availabilityScore, agentC10, min_def]

/-- The skill-match factor always lies in `[0, 1]`. -/
theorem calculateSkillMatch_bounds (agent : Agent) (job : Job) :
    0 ≤ calculateSkillMatch agent job ∧ calculateSkillMatch agent job ≤ 1 := by
  simp only [calculateSkillMatch]
  by_cases h : job.tags.dedup.length = 0
  · rw [if_pos h]; norm_num
  · rw [if_neg h]
    have hm : (0 : ℚ) ≤
        ((job.tags.dedup.filter (fun t => agent.tags.contains t)).length : ℚ) /
          (job.tags.dedup.length : ℚ) :=
      div_nonneg (Nat.cast_nonneg _) (Nat.cast_nonneg _)
    have hb : (0 : ℚ) ≤
        (if lowerString agent.agentClassification == lowerString job.skillLevel
          then (1 : ℚ)/5
         else if (lowerString agent.agentClassification == "expert" &&
              lowerString job.skillLevel == "intermediate") ||
            (lowerString agent.agentClassification == "intermediate" &&
              lowerString job.skillLevel == "beginner") then 1/10
         else 0) := by
      split_ifs <;> norm_num
    exact ⟨le_min (add_nonneg hm hb) (by norm_num), min_le_right _ _⟩

/-- The stepped availability factor always lies in `[0, 1]`. -/
theorem availabilityScore_bounds (n : Nat) :
    0 ≤ availabilityScore n ∧ availabilityScore n ≤ 1 := by
  simp only [availabilityScore]
  split_ifs <;> norm_num

/-- C10 amended: the composite score lies in `[0, 1]` PROVIDED the stored
reputation is nonnegative and the stored success rate lies in `[0, 1]`; the
skill-match and availability factors are unconditionally in `[0, 1]`, the
reputation factor is clamped only from above, and the success rate is used
exactly as stored. -/
theorem C10_score_bounds_amended (agent : Agent) (job : Job) (now : Nat)
    (db : DB) (h1 : 0 ≤ agent.reputation) (h2 : 0 ≤ agent.successRate)
    (h3 : agent.successRate ≤ 1) :
    0 ≤ (calculateAgentScore agent job now db).score ∧
      (calculateAgentScore agent job now db).score ≤ 1 := by
  obtain ⟨hs0, hs1⟩ := calculateSkillMatch_bounds agent job
  obtain ⟨ha0, ha1⟩ := availabilityScore_bounds (recentAssignmentCount agent.id now db)
  have hr0 : (0 : ℚ) ≤ min (agent.reputation / 5) 1 :=
    le_min (by positivity) (by norm_num)
  have hr1 : min (agent.reputation / 5) 1 ≤ 1 := min_le_right _ _
  simp only [calculateAgentScore]
  constructor <;> linarith

/-- An in-range agent for the C10 witness. -/
def agentC10w : Agent :=
  { agentC10 with id := "y", reputation := 3, successRate := 1/2 }

/-- C10 witness: the amended bounds applied to a concrete in-range agent. -/
theorem C10_score_bounds_witness :
    0 ≤ (calculateAgentScore agentC10w jobC10 0 dbC10).score ∧
      (calculateAgentScore agentC10w jobC10 0 dbC10).score ≤ 1 :=
  C10_score_bounds_amended agentC10w jobC10 0 dbC10 (by norm_num [agentC10w])
    (by norm_num [agentC10w]) (by norm_num [agentC10w, agentC10])

/-! ### C6: the best-scored strategy -/

/-- The specification's concrete agent A: completed in 10000 ms with a
500-character result, finished at t = 100. -/
def execA6 : AgentExecutionResult :=
  { agentId := "A"
    agentName := "A"
    distributionId := 0
    workStatus := AgentWorkStatus.COMPLETED
    executionResult := some (String.mk (List.replicate 500 'x'))
    executionTimeMs := some 10000
    startedAt := none
    completedAt := some 100
    errorMessage := none }

/-- The specification's concrete agent B: completed in 600000 ms with a
50-character result, finished at t = 50. -/
def execB6 : AgentExecutionResult :=
  { execA6 with
    agentId := "B"
    agentName := "B"
    executionResult := some (String.mk (List.replicate 50 'y'))
    executionTimeMs := some 600000
    completedAt := some 50 }

/-- A completed assignment row whose stored `executionTimeMs` is 0. -/
def rowC6 : JobDistributionAgent :=
  { jobDistributionId := 0
    agentId := "z"
    workStatus := AgentWorkStatus.COMPLETED
    assignedAt := 0
    startedAt := none
    completedAt := some 7
    progress := none
    executionResult := some (String.mk (List.replicate 500 'x'))
    errorMessage := none
    executionTimeMs := some 0
    retryCount := 0 }

set_option maxRecDepth 16384 in
/-- C6 counterexample: for a completed assignment with stored
`executionTimeMs = 0` the claimed formula yields `100 + 50 + 5 = 155`, but the
code computes `105`: the speed bonus is guarded by JavaScript truthiness of
`executionTimeMs`, so a zero (or absent) execution time contributes 0, not
`max(0, 50 − 0/60000) = 50`. -/
theorem C6_counterexample :
    calculateResultScore (toExecutionResult [] rowC6) = 105 ∧
    (100 : ℚ) + max 0 (50 - ((0 : Int) : ℚ) / 60000) +
      min 20 (((500 : Nat) : ℚ) / 100) = 155 ∧
    (105 : ℚ) ≠ 155 := by
  refine ⟨?_, by norm_num [max_def, min_def], by norm_num⟩
  have hrow : toExecutionResult [] rowC6 =
      { agentId := "z"
        agentName := ""
        distributionId := 0
        workStatus := AgentWorkStatus.COMPLETED
        executionResult := some (String.mk (List.replicate 500 'x'))
        executionTimeMs := none
        startedAt := none
        completedAt := some 7
        errorMessage := none } := by decide
  rw [hrow]
  simp only [calculateResultScore]
  rw [if_pos (by decide), if_pos (by decide)]
  rw [show (String.mk (List.replicate 500 'x')).length = 500 from by decide]
  norm_num [min_def]

set_option maxRecDepth 16384 in
/-- C6 amended: for every completed assignment whose recorded execution time
is nonzero the result score equals
`100 + max(0, 50 − t/60000) + min(20, resultLength/100)` (speed bonus
saturating at 0 beyond 50 minutes, content bonus at 2000 characters); a zero
or absent execution time contributes a speed bonus of 0 instead of 50.  On
the specification's concrete pair, A (10000 ms, 500 chars) scores 929/6 ≈
154.83, B (600000 ms, 50 chars) scores 281/2 = 140.5, and A wins under
`best_scored` in either presentation order. -/
theorem C6_best_scored_amended :
    (∀ e : AgentExecutionResult, e.workStatus = AgentWorkStatus.COMPLETED →
      ∀ t : Int, e.executionTimeMs = some t → t ≠ 0 →
      calculateResultScore e =
        100 + max 0 (50 - (t : ℚ) / 60000) +
          min 20 (((e.executionResult.getD "").length : ℚ) / 100)) ∧
    calculateResultScore execA6 = 929/6 ∧
    calculateResultScore execB6 = 281/2 ∧
    calculateResultScore execB6 < calculateResultScore execA6 ∧
    selectWinner SelectionStrategy.best_scored [execB6, execA6] = some execA6 ∧
    selectWinner SelectionStrategy.best_scored [execA6, execB6] = some execA6 := by
  have hgen : ∀ e : AgentExecutionResult,
      e.workStatus = AgentWorkStatus.COMPLETED →
      ∀ t : Int, e.executionTimeMs = some t → t ≠ 0 →
      calculateResultScore e =
        100 + max 0 (50 - (t : ℚ) / 60000) +
          min 20 (((e.executionResult.getD "").length : ℚ) / 100) := by
    intro e he t ht htz
    simp only [calculateResultScore, he, ht]
    rw [if_pos (by decide), if_pos htz]
    rw [div_div, show ((1000 : ℚ) * 60) = 60000 from by norm_num]
    congr 1
    cases hr : e.executionResult with
    | none =>
      have h0 : ("" : String).length = 0 := rfl
      norm_num [Option.getD_none, h0, min_def]
    | some r =>
      by_cases hl : r.length > 0
      · simp [hl]
      · have h0 : r.length = 0 := Nat.eq_zero_of_not_pos hl
        norm_num [h0, min_def]
  have hA : calculateResultScore execA6 = 929/6 := by
    rw [hgen execA6 rfl 10000 rfl (by norm_num)]
    rw [show (execA6.executionResult.getD "").length = 500 from by decide]
    norm_num [max_def, min_def]
  have hB : calculateResultScore execB6 = 281/2 := by
    rw [hgen execB6 rfl 600000 rfl (by norm_num)]
    rw [show (execB6.executionResult.getD "").length = 50 from by decide]
    norm_num [max_def, min_def]
  have hlt : calculateResultScore execB6 < calculateResultScore execA6 := by
    rw [hA, hB]; norm_num
  refine ⟨hgen, hA, hB, hlt, ?_, ?_⟩
  · simp only [selectWinner, sortByKey, List.foldl_cons, List.foldl_nil, insertByKey]
    rw [if_pos (show -calculateResultScore execA6 < -calculateResultScore execB6 from
      by rw [hA, hB]; norm_num)]
    rfl
  · simp only [selectWinner, sortByKey, List.foldl_cons, List.foldl_nil, insertByKey]
    rw [if_neg (show ¬(-calculateResultScore execB6 < -calculateResultScore execA6) from
      by rw [hA, hB]; norm_num)]
    rfl

/-- C6 witness: the amended per-assignment formula evaluated at the concrete
agent A of the claim. -/
theorem C6_best_scored_witness :
    calculateResultScore execA6 =
      100 + max 0 (50 - ((10000 : Int) : ℚ) / 60000) +
        min 20 (((execA6.executionResult.getD "").length : ℚ) / 100) :=
  C6_best_scored_amended.1 execA6 rfl 10000 rfl (by norm_num)

/-! ### C1: opening a distribution -/

/-- C1: opening a distribution for a job with a non-empty ranked agent list
either fails with `NotFound` leaving the store untouched (when the job does
not exist) or, in one transaction, creates exactly one distribution record
with `totalAgents = assignedCount = |agents|` and `responseCount = 0`, creates
one `ASSIGNED` assignment per listed agent (so the record's counters equal the
number of assignment rows of that distribution), and sets the job's status to
`DISTRIBUTED`.  The well-formedness hypotheses say the fresh-id counter really
is fresh. -/
theorem C1_open_distribution (jobId : String) (agents : List Agent) (now : Nat)
    (db : DB) (hne : agents ≠ [])
    (hwfA : ∀ a ∈ db.assignments, a.jobDistributionId < db.nextDistId)
    (hwfD : ∀ r ∈ db.distributions, r.id < db.nextDistId) :
    (db.jobs.find? (fun j => j.id == jobId) = none ∧
      createDistributionRecord jobId agents now db =
        (Except.error ExecError.NotFound, db)) ∨
    (∃ rec db', createDistributionRecord jobId agents now db = (Except.ok rec, db') ∧
      rec.totalAgents = agents.length ∧
      rec.assignedCount = agents.length ∧
      rec.responseCount = 0 ∧
      (db'.distributions.filter (fun r => r.id == rec.id)).length = 1 ∧
      (db'.assignments.filter (fun a => a.jobDistributionId == rec.id)).length =
        agents.length ∧
      (∀ a ∈ db'.assignments, a.jobDistributionId = rec.id →
        a.workStatus = AgentWorkStatus.ASSIGNED) ∧
      (∀ j ∈ db'.jobs, j.id = jobId → j.status = JobStatus.DISTRIBUTED)) := by
  cases hfind : db.jobs.find? (fun j => j.id == jobId) with
  | none =>
    left
    exact ⟨rfl, by simp only [createDistributionRecord, hfind]⟩
  | some job =>
    right
    refine ⟨mkDistRecord jobId agents now db job,
      { db with
        distributions := db.distributions ++ [mkDistRecord jobId agents now db job]
        assignments := db.assignments ++ agents.map (mkAssignmentRow db.nextDistId now)
        jobs := db.jobs.map (setJobStatus jobId JobStatus.DISTRIBUTED)
        nextDistId := db.nextDistId + 1 },
      by simp only [createDistributionRecord, hfind], rfl, rfl, rfl, ?_, ?_, ?_, ?_⟩
    · rw [List.filter_append]
      have h1 : db.distributions.filter
          (fun r => r.id == (mkDistRecord jobId agents now db job).id) = [] := by
        rw [List.filter_eq_nil_iff]
        intro r hr
        have := hwfD r hr
        simp only [mkDistRecord, beq_iff_eq]
        omega
      have h2 : ([mkDistRecord jobId agents now db job].filter
          (fun r => r.id == (mkDistRecord jobId agents now db job).id)) =
          [mkDistRecord jobId agents now db job] := by
        simp
      rw [h1, h2]
      rfl
    · rw [List.filter_append]
      have h1 : db.assignments.filter
          (fun a => a.jobDistributionId == (mkDistRecord jobId agents now db job).id) = [] := by
        rw [List.filter_eq_nil_iff]
        intro a ha
        have := hwfA a ha
        simp only [mkDistRecord, beq_iff_eq]
        omega
      have h2 : (agents.map (mkAssignmentRow db.nextDistId now)).filter
          (fun a => a.jobDistributionId == (mkDistRecord jobId agents now db job).id) =
          agents.map (mkAssignmentRow db.nextDistId now) := by
        rw [List.filter_eq_self]
        intro x hx
        obtain ⟨ag, _, hag⟩ := List.mem_map.mp hx
        rw [← hag]
        simp [mkAssignmentRow, mkDistRecord]
      rw [h1, h2, List.nil_append, List.length_map]
    · intro a ha hid
      rcases List.mem_append.mp ha with hold | hnew
      · have := hwfA a hold
        have hrec : (mkDistRecord jobId agents now db job).id = db.nextDistId := rfl
        rw [hrec] at hid
        omega
      · obtain ⟨ag, _, hag⟩ := List.mem_map.mp hnew
        rw [← hag]
        rfl
    · intro j hj hid
      obtain ⟨j0, _, hj0⟩ := List.mem_map.mp hj
      by_cases hcase : (j0.id == jobId) = true
      · rw [← hj0]
        simp [setJobStatus, hcase]
      · exfalso
        rw [← hj0] at hid
        simp only [setJobStatus, if_neg hcase] at hid
        exact hcase (beq_iff_eq.mpr hid)

/-- The job used by the C1 witness. -/
def jobC1 : Job :=
  { id := "job1"
    jobTitle := "Title"
    category := "cat"
    skillLevel := "beginner"
    tags := ["t"]
    maxBudget := none
    status := JobStatus.OPEN }

/-- A store holding only `jobC1`. -/
def dbC1 : DB :=
  { jobs := [jobC1]
    agents := [agentC7]
    distributions := []
    assignments := []
    performances := []
    logs := []
    nextDistId := 0 }

/-- C1 witness: the theorem applied to the one-job store and a single-agent
ranked list. -/
theorem C1_open_distribution_witness :
    (dbC1.jobs.find? (fun j => j.id == "job1") = none ∧
      createDistributionRecord "job1" [agentC7] 5 dbC1 =
        (Except.error ExecError.NotFound, dbC1)) ∨
    (∃ rec db', createDistributionRecord "job1" [agentC7] 5 dbC1 = (Except.ok rec, db') ∧
      rec.totalAgents = [agentC7].length ∧
      rec.assignedCount = [agentC7].length ∧
      rec.responseCount = 0 ∧
      (db'.distributions.filter (fun r => r.id == rec.id)).length = 1 ∧
      (db'.assignments.filter (fun a => a.jobDistributionId == rec.id)).length =
        [agentC7].length ∧
      (∀ a ∈ db'.assignments, a.jobDistributionId = rec.id →
        a.workStatus = AgentWorkStatus.ASSIGNED) ∧
      (∀ j ∈ db'.jobs, j.id = "job1" → j.status = JobStatus.DISTRIBUTED)) :=
  C1_open_distribution "job1" [agentC7] 5 dbC1 (by decide)
    (by intro a ha; simp [dbC1] at ha) (by intro r hr; simp [dbC1] at hr)

/-! ### C2: effects and frame of winner selection -/

/-- The winner choice of a non-empty completed list exists and is one of the
completed agents. -/
theorem selectWinner_mem (strategy : SelectionStrategy)
    (l : List AgentExecutionResult) (hne : l ≠ []) :
    ∃ w, selectWinner strategy l = some w ∧ w ∈ l := by
  cases strategy with
  | first_completed =>
    obtain ⟨w, hw, hmem, -, -⟩ := sortByKey_head_spec completedAtKey l hne
    exact ⟨w, by simp only [selectWinner]; exact hw, hmem⟩
  | best_scored =>
    obtain ⟨w, hw, hmem, -, -⟩ :=
      sortByKey_head_spec (fun e => -calculateResultScore e) l hne
    exact ⟨w, by simp only [selectWinner]; exact hw, hmem⟩

/-- Cancellation of losers never touches an assignment already in a terminal
state. -/
theorem cancelStep_of_terminal (did : Nat) (wid : String) (now : Nat)
    (a : JobDistributionAgent) (hterm : isTerminalStatus a.workStatus = true) :
    cancelStep did wid now a = a := by
  unfold cancelStep
  cases hst : a.workStatus <;>
    first
    | (rw [hst] at hterm; exact absurd hterm (by decide))
    | (refine if_neg (fun hc => ?_)
       simp only [Bool.and_eq_true, Bool.or_eq_true] at hc
       rcases hc with ⟨-, h3 | h3⟩ <;> exact absurd h3 (by decide))

/-- Cancellation of losers never touches assignments of other distributions. -/
theorem cancelStep_of_other (did : Nat) (wid : String) (now : Nat)
    (a : JobDistributionAgent) (hother : a.jobDistributionId ≠ did) :
    cancelStep did wid now a = a := by
  unfold cancelStep
  refine if_neg (fun hc => ?_)
  simp only [Bool.and_eq_true, beq_iff_eq] at hc
  exact hother hc.1.1

/-- C2: when the distribution has at least one completed assignment, winner
selection succeeds and atomically (a) stores the winner's id and name on the
record, (b) sets the job's status to `COMPLETED`, (c) turns every other
`ASSIGNED`/`WORKING` assignment of the distribution into `CANCELLED` with the
standard message and a stamped `completedAt`, while (d) leaving terminal
assignments — and assignments of other distributions — exactly as they were,
and (e) creating or deleting no assignment rows. -/
theorem C2_winner_selection (did : Nat) (strategy : SelectionStrategy)
    (now : Nat) (db : DB) (record : DistributionDetail)
    (hrec : getDistributionDetail did db = some record)
    (hcomp : record.agentExecutions.filter
      (fun e => e.workStatus == AgentWorkStatus.COMPLETED) ≠ []) :
    ∃ w db', selectBestAgentAndComplete did strategy now db = (Except.ok (), db') ∧
      w ∈ record.agentExecutions ∧
      w.workStatus = AgentWorkStatus.COMPLETED ∧
      (∀ r ∈ db.distributions, r.id = did →
        { r with assignedAgentId := some w.agentId,
                 assignedAgentName := some w.agentName } ∈ db'.distributions) ∧
      (∀ j ∈ db.jobs, j.id = record.jobId →
        { j with status := JobStatus.COMPLETED } ∈ db'.jobs) ∧
      db'.assignments.length = db.assignments.length ∧
      (∀ a ∈ db.assignments, a.jobDistributionId = did → a.agentId ≠ w.agentId →
        (a.workStatus = AgentWorkStatus.ASSIGNED ∨
          a.workStatus = AgentWorkStatus.WORKING) →
        { a with workStatus := AgentWorkStatus.CANCELLED,
                 completedAt := some now,
                 errorMessage := some "Task completed by another agent" }
          ∈ db'.assignments) ∧
      (∀ a ∈ db.assignments, isTerminalStatus a.workStatus = true →
        a ∈ db'.assignments) ∧
      (∀ a ∈ db.assignments, a.jobDistributionId ≠ did → a ∈ db'.assignments) := by
  obtain ⟨w, hwin, hmem⟩ := selectWinner_mem strategy
    (record.agentExecutions.filter
      (fun e => e.workStatus == AgentWorkStatus.COMPLETED)) hcomp
  refine ⟨w,
    { db with
      distributions := db.distributions.map (winStep did w)
      jobs := db.jobs.map (setJobStatus record.jobId JobStatus.COMPLETED)
      assignments := db.assignments.map (cancelStep did w.agentId now) },
    ?_, List.mem_of_mem_filter hmem,
    beq_iff_eq.mp (List.mem_filter.mp hmem).2, ?_, ?_, ?_, ?_, ?_, ?_⟩
  · simp only [selectBestAgentAndComplete, hrec, hwin]
  · intro r hr hid
    have : winStep did w r =
        { r with assignedAgentId := some w.agentId,
                 assignedAgentName := some w.agentName } := by
      simp [winStep, hid]
    exact this ▸ List.mem_map_of_mem _ hr
  · intro j hj hid
    have : setJobStatus record.jobId JobStatus.COMPLETED j =
        { j with status := JobStatus.COMPLETED } := by
      simp [setJobStatus, hid]
    exact this ▸ List.mem_map_of_mem _ hj
  · exact List.length_map _ _
  · intro a ha hid hag hst
    have : cancelStep did w.agentId now a =
        { a with workStatus := AgentWorkStatus.CANCELLED,
                 completedAt := some now,
                 errorMessage := some "Task completed by another agent" } := by
      unfold cancelStep
      refine if_pos ?_
      simp only [Bool.and_eq_true, Bool.or_eq_true, beq_iff_eq, bne_iff_ne]
      exact ⟨⟨hid, hag⟩, hst⟩
    exact this ▸ List.mem_map_of_mem _ ha
  · intro a ha hterm
    have := cancelStep_of_terminal did w.agentId now a hterm
    exact this ▸ List.mem_map_of_mem _ ha
  · intro a ha hother
    have := cancelStep_of_other did w.agentId now a hother
    exact this ▸ List.mem_map_of_mem _ ha

/-- The distribution record of the C2/C5 stores. -/
def recC2 : JobDistributionRecord :=
  { id := 0
    jobId := "j2"
    jobName := "J2"
    matchCriteria := { tags := []
                       category := "c"
                       skillLevel := "s"
                       maxBudget := none
                       autoAcceptJobs := true
                       isActive := true }
    totalAgents := 2
    assignedCount := 2
    responseCount := 0
    assignedAgentId := none
    assignedAgentName := none
    createdAt := 0 }

/-- An assignment row of distribution 0 for agent `w`, completed at t = 10. -/
def rowW2 : JobDistributionAgent :=
  { jobDistributionId := 0
    agentId := "w"
    workStatus := AgentWorkStatus.COMPLETED
    assignedAt := 0
    startedAt := some 1
    completedAt := some 10
    progress := none
    executionResult := some "r"
    errorMessage := none
    executionTimeMs := some 9
    retryCount := 0 }

/-- An assignment row of distribution 0 for agent `b`, still `WORKING`. -/
def rowB2 : JobDistributionAgent :=
  { rowW2 with
    agentId := "b"
    workStatus := AgentWorkStatus.WORKING
    completedAt := none
    executionResult := none
    executionTimeMs := none }

/-- The store of the C2 witness: one completed and one working assignment. -/
def dbC2 : DB :=
  { jobs := [{ jobC1 with id := "j2", status := JobStatus.IN_PROGRESS }]
    agents := []
    distributions := [recC2]
    assignments := [rowW2, rowB2]
    performances := []
    logs := []
    nextDistId := 1 }

/-- The detail view of distribution 0 in `dbC2`. -/
def detailC2 : DistributionDetail :=
  { id := 0
    jobId := "j2"
    jobName := "J2"
    totalAgents := 2
    assignedCount := 2
    responseCount := 0
    assignedAgentId := none
    assignedAgentName := none
    createdAt := 0
    agentExecutions := [toExecutionResult [] rowW2, toExecutionResult [] rowB2] }

/-- C2 witness: the selection theorem applied to the concrete store with one
completed and one working assignment. -/
theorem C2_winner_selection_witness :
    ∃ w db', selectBestAgentAndComplete 0 SelectionStrategy.first_completed 99 dbC2 =
        (Except.ok (), db') ∧
      w ∈ detailC2.agentExecutions ∧
      w.workStatus = AgentWorkStatus.COMPLETED ∧
      (∀ r ∈ dbC2.distributions, r.id = 0 →
        { r with assignedAgentId := some w.agentId,
                 assignedAgentName := some w.agentName } ∈ db'.distributions) ∧
      (∀ j ∈ dbC2.jobs, j.id = detailC2.jobId →
        { j with status := JobStatus.COMPLETED } ∈ db'.jobs) ∧
      db'.assignments.length = dbC2.assignments.length ∧
      (∀ a ∈ dbC2.assignments, a.jobDistributionId = 0 → a.agentId ≠ w.agentId →
        (a.workStatus = AgentWorkStatus.ASSIGNED ∨
          a.workStatus = AgentWorkStatus.WORKING) →
        { a with workStatus := AgentWorkStatus.CANCELLED,
                 completedAt := some 99,
                 errorMessage := some "Task completed by another agent" }
          ∈ db'.assignments) ∧
      (∀ a ∈ dbC2.assignments, isTerminalStatus a.workStatus = true →
        a ∈ db'.assignments) ∧
      (∀ a ∈ dbC2.assignments, a.jobDistributionId ≠ 0 → a ∈ db'.assignments) :=
  C2_winner_selection 0 SelectionStrategy.first_completed 99 dbC2 detailC2
    (by decide) (by decide)

/-! ### C5: the first-completed strategy -/

/-- C5: under `first_completed`, when every completed assignment carries a
`completedAt` timestamp, the recorded winner is a completed assignment whose
timestamp is minimal among all completed assignments — regardless of the
order in which the completions appear — and every completed assignment that
precedes the winner in iteration order has a strictly later timestamp (so
ties resolve to the first encountered). -/
theorem C5_first_completed_earliest (did : Nat) (now : Nat) (db : DB)
    (record : DistributionDetail)
    (hrec : getDistributionDetail did db = some record)
    (hne : record.agentExecutions.filter
      (fun e => e.workStatus == AgentWorkStatus.COMPLETED) ≠ [])
    (hts : ∀ e ∈ record.agentExecutions.filter
      (fun e => e.workStatus == AgentWorkStatus.COMPLETED),
      e.completedAt.isSome = true) :
    ∃ w tw db',
      selectBestAgentAndComplete did SelectionStrategy.first_completed now db =
        (Except.ok (), db') ∧
      w ∈ record.agentExecutions.filter
        (fun e => e.workStatus == AgentWorkStatus.COMPLETED) ∧
      w.completedAt = some tw ∧
      (∀ r ∈ db.distributions, r.id = did →
        { r with assignedAgentId := some w.agentId,
                 assignedAgentName := some w.agentName } ∈ db'.distributions) ∧
      (∀ e ∈ record.agentExecutions.filter
        (fun e => e.workStatus == AgentWorkStatus.COMPLETED),
        ∀ t, e.completedAt = some t → tw ≤ t) ∧
      (∃ l₁ l₂, record.agentExecutions.filter
          (fun e => e.workStatus == AgentWorkStatus.COMPLETED) = l₁ ++ w :: l₂ ∧
        ∀ e ∈ l₁, ∀ t, e.completedAt = some t → tw < t) := by
  obtain ⟨w, hhead, hmem, hle, l₁, l₂, hsplit, hfirst⟩ :=
    sortByKey_head_spec completedAtKey
      (record.agentExecutions.filter
        (fun e => e.workStatus == AgentWorkStatus.COMPLETED)) hne
  have hwin : selectWinner SelectionStrategy.first_completed
      (record.agentExecutions.filter
        (fun e => e.workStatus == AgentWorkStatus.COMPLETED)) = some w := by
    simp only [selectWinner]; exact hhead
  obtain ⟨tw, htw⟩ := Option.isSome_iff_exists.mp (hts w hmem)
  have hkeyw : completedAtKey w = (tw : ℚ) := by
    simp [completedAtKey, htw]
  refine ⟨w, tw,
    { db with
      distributions := db.distributions.map (winStep did w)
      jobs := db.jobs.map (setJobStatus record.jobId JobStatus.COMPLETED)
      assignments := db.assignments.map (cancelStep did w.agentId now) },
    ?_, hmem, htw, ?_, ?_, ?_⟩
  · simp only [selectBestAgentAndComplete, hrec, hwin]
  · intro r hr hid
    have : winStep did w r =
        { r with assignedAgentId := some w.agentId,
                 assignedAgentName := some w.agentName } := by
      simp [winStep, hid]
    exact this ▸ List.mem_map_of_mem _ hr
  · intro e he t ht
    have hkey := hle e he
    rw [hkeyw] at hkey
    have hkeye : completedAtKey e = (t : ℚ) := by
      simp [completedAtKey, ht]
    rw [hkeye] at hkey
    exact_mod_cast hkey
  · refine ⟨l₁, l₂, hsplit, ?_⟩
    intro e he t ht
    have hkey := hfirst e he
    rw [hkeyw] at hkey
    have hkeye : completedAtKey e = (t : ℚ) := by
      simp [completedAtKey, ht]
    rw [hkeye] at hkey
    exact_mod_cast hkey

/-- The assignment rows of the C5 store: agent `A` completed at t = 100,
agent `B` completed at t = 50. -/
def rowA5 : JobDistributionAgent :=
  { rowW2 with agentId := "A", completedAt := some 100 }

/-- Agent `B`'s row, completed earlier (t = 50). -/
def rowB5 : JobDistributionAgent :=
  { rowW2 with agentId := "B", completedAt := some 50 }

/-- The C5 store: both completions present, the later one listed first. -/
def dbC5 : DB :=
  { dbC2 with assignments := [rowA5, rowB5] }

/-- The detail view of distribution 0 in `dbC5`. -/
def detailC5 : DistributionDetail :=
  { detailC2 with
    agentExecutions := [toExecutionResult [] rowA5, toExecutionResult [] rowB5] }

/-- C5 witness: the theorem applied to the concrete store with completions at
t = 100 and t = 50 (listed in that order). -/
theorem C5_first_completed_witness :
    ∃ w tw db',
      selectBestAgentAndComplete 0 SelectionStrategy.first_completed 99 dbC5 =
        (Except.ok (), db') ∧
      w ∈ detailC5.agentExecutions.filter
        (fun e => e.workStatus == AgentWorkStatus.COMPLETED) ∧
      w.completedAt = some tw ∧
      (∀ r ∈ dbC5.distributions, r.id = 0 →
        { r with assignedAgentId := some w.agentId,
                 assignedAgentName := some w.agentName } ∈ db'.distributions) ∧
      (∀ e ∈ detailC5.agentExecutions.filter
        (fun e => e.workStatus == AgentWorkStatus.COMPLETED),
        ∀ t, e.completedAt = some t → tw ≤ t) ∧
      (∃ l₁ l₂, detailC5.agentExecutions.filter
          (fun e => e.workStatus == AgentWorkStatus.COMPLETED) = l₁ ++ w :: l₂ ∧
        ∀ e ∈ l₁, ∀ t, e.completedAt = some t → tw < t) :=
  C5_first_completed_earliest 0 99 dbC5 detailC5 (by decide) (by decide) (by decide)

/-! ### C9: which transitions update AgentPerformance -/

/-- Winner selection never touches the `AgentPerformance` table. -/
theorem selectBest_performances (did : Nat) (strat : SelectionStrategy)
    (now : Nat) (db : DB) :
    (selectBestAgentAndComplete did strat now db).2.performances =
      db.performances := by
  unfold selectBestAgentAndComplete
  cases getDistributionDetail did db with
  | none => rfl
  | some record =>
    cases h : selectWinner strat (record.agentExecutions.filter
      (fun e => e.workStatus == AgentWorkStatus.COMPLETED)) with
    | none => simp only [h]
    | some w => simp only [h]

/-- The distribution timeout sweep never touches the `AgentPerformance`
table. -/
theorem handleDistributionTimeout_performances (did : Nat) (now : Nat)
    (db : DB) :
    (handleDistributionTimeout did now db).2.performances = db.performances := by
  unfold handleDistributionTimeout
  cases db.distributions.find? (fun r => r.id == did) with
  | none => rfl
  | some record =>
    by_cases hc : (db.assignments.map (timeoutStep did now)).any (fun a =>
        a.jobDistributionId == did && a.workStatus == AgentWorkStatus.COMPLETED) = true
    · simp only [hc, if_true]
      exact selectBest_performances did SelectionStrategy.first_completed now _
    · simp only [Bool.not_eq_true] at hc
      simp only [hc, Bool.false_eq_true, if_false]

/-- The existing performance row of the C9 store. -/
def perfC9 : AgentPerformance :=
  { agentId := "b"
    totalJobs := 3
    completedJobs := 1
    failedJobs := 2
    avgExecutionTime := 0
    successRate := 0 }

/-- The C9 store: agent `w` completed, agent `b` still working, with an
existing performance row for `b`. -/
def dbC9 : DB :=
  { dbC2 with performances := [perfC9] }

/-- The C9 sweep store: only the working assignment of `b`. -/
def dbC9t : DB :=
  { dbC9 with assignments := [rowB2] }

/-- C9 counterexample: winner selection transitions `b`'s assignment from
`WORKING` to the terminal state `CANCELLED`, and the timeout sweep transitions
it to the terminal state `TIMEOUT`, yet in both runs the `AgentPerformance`
row of `b` keeps `totalJobs = 3` — terminal transitions produced by the
selector's `updateMany` and the sweep's `updateMany` do not upsert
`AgentPerformance`, contradicting the claim that every terminal transition
does. -/
theorem C9_counterexample :
    ((selectBestAgentAndComplete 0 SelectionStrategy.first_completed 99 dbC9).2.assignments.map
      (fun a => (a.agentId, a.workStatus)) =
      [("w", AgentWorkStatus.COMPLETED), ("b", AgentWorkStatus.CANCELLED)]) ∧
    ((selectBestAgentAndComplete 0 SelectionStrategy.first_completed 99 dbC9).2.performances.map
      (fun p => (p.agentId, p.totalJobs, p.completedJobs, p.failedJobs)) =
      [("b", 3, 1, 2)]) ∧
    ((handleDistributionTimeout 0 99 dbC9t).2.assignments.map
      (fun a => (a.agentId, a.workStatus)) = [("b", AgentWorkStatus.TIMEOUT)]) ∧
    ((handleDistributionTimeout 0 99 dbC9t).2.performances.map
      (fun p => (p.agentId, p.totalJobs, p.completedJobs, p.failedJobs)) =
      [("b", 3, 1, 2)]) := by
  refine ⟨by decide, by decide, by decide, by decide⟩

/-- C9 amended: `AgentPerformance` is upserted exactly by the tracker's
completed/failed (and per-agent timeout) paths — on a success with a nonzero
recorded time, `totalJobs` and `completedJobs` are incremented, the running
average over successes becomes `(oldAvg·oldCompleted + t)/newCompleted` and
`successRate` becomes `newCompleted/newTotal`; on a failure `failedJobs` is
incremented and the average is untouched.  But the bulk `CANCELLED`
transitions of winner selection and the bulk `TIMEOUT` transitions of the
distribution timeout sweep never touch `AgentPerformance`. -/
theorem C9_performance_updates_amended :
    (∀ (did : Nat) (aid res : String) (t : Int) (now : Nat) (db : DB)
      (p : AgentPerformance),
      db.performances.find? (fun q => q.agentId == aid) = some p →
      db.assignments.any (fun a =>
        a.jobDistributionId == did && a.agentId == aid) = true →
      t ≠ 0 →
      ∃ db', handleExecutionCompleted did aid res (some t) now db =
          (Except.ok (), db') ∧
        { p with totalJobs := p.totalJobs + 1
                 completedJobs := p.completedJobs + 1
                 avgExecutionTime :=
                   (p.avgExecutionTime * (p.completedJobs : ℚ) + (t : ℚ)) /
                     ((p.completedJobs + 1 : Nat) : ℚ)
                 successRate :=
                   ((p.completedJobs + 1 : Nat) : ℚ) / ((p.totalJobs + 1 : Nat) : ℚ) }
          ∈ db'.performances) ∧
    (∀ (did : Nat) (aid msg : String) (now : Nat) (db : DB)
      (p : AgentPerformance),
      db.performances.find? (fun q => q.agentId == aid) = some p →
      db.assignments.any (fun a =>
        a.jobDistributionId == did && a.agentId == aid) = true →
      ∃ db', handleExecutionFailed did aid msg none now db =
          (Except.ok (), db') ∧
        { p with totalJobs := p.totalJobs + 1
                 failedJobs := p.failedJobs + 1
                 successRate :=
                   ((p.completedJobs : Nat) : ℚ) / ((p.totalJobs + 1 : Nat) : ℚ) }
          ∈ db'.performances) ∧
    (∀ (did : Nat) (strat : SelectionStrategy) (now : Nat) (db : DB),
      (selectBestAgentAndComplete did strat now db).2.performances =
        db.performances) ∧
    (∀ (did : Nat) (now : Nat) (db : DB),
      (handleDistributionTimeout did now db).2.performances = db.performances) := by
  refine ⟨?_, ?_, selectBest_performances, handleDistributionTimeout_performances⟩
  · intro did aid res t now db p hfind hany htz
    simp only [handleExecutionCompleted, updateExecutionStatus, if_pos hany]
    refine ⟨_, rfl, ?_⟩
    simp only [updateAgentPerformance, logExecutionEvent_performances, hfind]
    have hpid : (p.agentId == aid) = true := by
      have h0 := List.find?_some hfind
      simpa using h0
    have hfp : (fun q : AgentPerformance =>
        if q.agentId == aid then
          { q with totalJobs := p.totalJobs + 1
                   completedJobs := if true then p.completedJobs + 1 else p.completedJobs
                   failedJobs := if true then p.failedJobs else p.failedJobs + 1
                   avgExecutionTime :=
                     if (t != 0 && true) = true then
                       (p.avgExecutionTime * (p.completedJobs : ℚ) + (t : ℚ)) /
                         ((if true then p.completedJobs + 1 else p.completedJobs : Nat) : ℚ)
                     else p.avgExecutionTime
                   successRate :=
                     ((if true then p.completedJobs + 1 else p.completedJobs : Nat) : ℚ) /
                       ((p.totalJobs + 1 : Nat) : ℚ) }
        else q) p =
        { p with totalJobs := p.totalJobs + 1
                 completedJobs := p.completedJobs + 1
                 avgExecutionTime :=
                   (p.avgExecutionTime * (p.completedJobs : ℚ) + (t : ℚ)) /
                     ((p.completedJobs + 1 : Nat) : ℚ)
                 successRate :=
                   ((p.completedJobs + 1 : Nat) : ℚ) / ((p.totalJobs + 1 : Nat) : ℚ) } := by
      simp [hpid, bne_iff_ne, htz]
    exact hfp ▸ List.mem_map_of_mem _ (List.mem_of_find?_eq_some hfind)
  · intro did aid msg now db p hfind hany
    simp only [handleExecutionFailed, updateExecutionStatus, if_pos hany]
    refine ⟨_, rfl, ?_⟩
    simp only [updateAgentPerformance, logExecutionEvent_performances, hfind]
    have hpid : (p.agentId == aid) = true := by
      have h0 := List.find?_some hfind
      simpa using h0
    have hfp : (fun q : AgentPerformance =>
        if q.agentId == aid then
          { q with totalJobs := p.totalJobs + 1
                   completedJobs := if false then p.completedJobs + 1 else p.completedJobs
                   failedJobs := if false then p.failedJobs else p.failedJobs + 1
                   avgExecutionTime := p.avgExecutionTime
                   successRate :=
                     ((if false then p.completedJobs + 1 else p.completedJobs : Nat) : ℚ) /
                       ((p.totalJobs + 1 : Nat) : ℚ) }
        else q) p =
        { p with totalJobs := p.totalJobs + 1
                 failedJobs := p.failedJobs + 1
                 successRate :=
                   ((p.completedJobs : Nat) : ℚ) / ((p.totalJobs + 1 : Nat) : ℚ) } := by
      simp [hpid]
    exact hfp ▸ List.mem_map_of_mem _ (List.mem_of_find?_eq_some hfind)

/-- C9 witness: the completed-path upsert applied to the concrete store
`dbC9` (agent `b`, existing counters 3/1/2, execution time 42 ms). -/
theorem C9_performance_updates_witness :
    ∃ db', handleExecutionCompleted 0 "b" "res" (some 42) 99 dbC9 =
        (Except.ok (), db') ∧
      { perfC9 with
        totalJobs := perfC9.totalJobs + 1
        completedJobs := perfC9.completedJobs + 1
        avgExecutionTime :=
          (perfC9.avgExecutionTime * (perfC9.completedJobs : ℚ) + ((42 : Int) : ℚ)) /
            ((perfC9.completedJobs + 1 : Nat) : ℚ)
        successRate :=
          ((perfC9.completedJobs + 1 : Nat) : ℚ) / ((perfC9.totalJobs + 1 : Nat) : ℚ) }
        ∈ db'.performances :=
  C9_performance_updates_amended.1 0 "b" "res" 42 99 dbC9 perfC9 rfl (by decide)
    (by norm_num)
/-! ### C4: idempotence of the timeout sweep -/

/-- Unfolding equation of `handleDistributionTimeout` once the record is
found. -/
theorem handleTimeout_step (did : Nat) (now : Nat) (db : DB)
    (record : JobDistributionRecord)
    (hfind : db.distributions.find? (fun r => r.id == did) = some record) :
    handleDistributionTimeout did now db =
      (if (db.assignments.map (timeoutStep did now)).any (fun a =>
          a.jobDistributionId == did && a.workStatus == AgentWorkStatus.COMPLETED)
       then selectBestAgentAndComplete did SelectionStrategy.first_completed now
          { db with assignments := db.assignments.map (timeoutStep did now) }
       else (Except.ok (),
          { db with assignments := db.assignments.map (timeoutStep did now),
                    jobs := db.jobs.map (setJobStatus record.jobId JobStatus.EXPIRED) })) := by
  simp only [handleDistributionTimeout, hfind]

/-- Unfolding equation of `getDistributionDetail` once the record is found. -/
theorem getDetail_step (did : Nat) (db : DB) (record : JobDistributionRecord)
    (hfind : db.distributions.find? (fun r => r.id == did) = some record) :
    getDistributionDetail did db = some
      { id := record.id
        jobId := record.jobId
        jobName := record.jobName
        totalAgents := record.totalAgents
        assignedCount := record.assignedCount
        responseCount := record.responseCount
        assignedAgentId := record.assignedAgentId
        assignedAgentName := record.assignedAgentName
        createdAt := record.createdAt
        agentExecutions := distributionExecs did db } := by
  simp only [getDistributionDetail, hfind]
  rfl

/-- Unfolding equation of `selectBestAgentAndComplete` once the detail is
found. -/
theorem selectBest_step (did : Nat) (strat : SelectionStrategy) (now : Nat)
    (db : DB) (record : DistributionDetail)
    (hrec : getDistributionDetail did db = some record) :
    selectBestAgentAndComplete did strat now db =
      (match selectWinner strat (record.agentExecutions.filter (fun e =>
          e.workStatus == AgentWorkStatus.COMPLETED)) with
       | none => (Except.ok (), db)
       | some w => (Except.ok (),
          { db with
            distributions := db.distributions.map (winStep did w)
            jobs := db.jobs.map (setJobStatus record.jobId JobStatus.COMPLETED)
            assignments := db.assignments.map (cancelStep did w.agentId now) })) := by
  simp only [selectBestAgentAndComplete, hrec]

/-- Recording the winner preserves record ids, so the lookup commutes with
the update. -/
theorem find?_map_winStep (did : Nat) (w : AgentExecutionResult)
    (l : List JobDistributionRecord) :
    (l.map (winStep did w)).find? (fun r => r.id == did) =
      (l.find? (fun r => r.id == did)).map (winStep did w) := by
  have hfun : ((fun r : JobDistributionRecord => r.id == did) ∘ winStep did w) =
      (fun r : JobDistributionRecord => r.id == did) :=
    funext (fun r => by simp [Function.comp, winStep_id_eq])
  rw [List.find?_map, hfun]

/-- C4: the distribution timeout sweep is idempotent — running
`handleDistributionTimeout` a second time (at any later wall-clock time)
returns the same result and leaves the store of the first run exactly
unchanged: the second bulk `TIMEOUT` update matches no row, the same winner
(if any) is re-selected and re-written with identical values, and the job
status write repeats the same value. -/
theorem C4_timeout_idempotent (did : Nat) (now1 now2 : Nat) (db : DB) :
    handleDistributionTimeout did now2 (handleDistributionTimeout did now1 db).2 =
      handleDistributionTimeout did now1 db := by
  cases hfind : db.distributions.find? (fun r => r.id == did) with
  | none =>
    have h1 : handleDistributionTimeout did now1 db =
        (Except.error ExecError.NotFound, db) := by
      simp only [handleDistributionTimeout, hfind]
    rw [h1]
    simp only [handleDistributionTimeout, hfind]
  | some record =>
    have hT2 : (db.assignments.map (timeoutStep did now1)).map (timeoutStep did now2) =
        db.assignments.map (timeoutStep did now1) :=
      map_map_self _ _ _ (timeoutStep_after_timeoutStep did now1 now2)
    rw [handleTimeout_step did now1 db record hfind]
    by_cases hc : ((db.assignments.map (timeoutStep did now1)).any (fun a =>
        a.jobDistributionId == did && a.workStatus == AgentWorkStatus.COMPLETED)) = true
    case neg =>
      simp only [Bool.not_eq_true] at hc
      rw [hc, if_neg Bool.false_ne_true]
      show handleDistributionTimeout did now2
          { db with assignments := db.assignments.map (timeoutStep did now1),
                    jobs := db.jobs.map (setJobStatus record.jobId JobStatus.EXPIRED) } =
        (Except.ok (),
          { db with assignments := db.assignments.map (timeoutStep did now1),
                    jobs := db.jobs.map (setJobStatus record.jobId JobStatus.EXPIRED) })
      rw [handleTimeout_step did now2
          { db with assignments := db.assignments.map (timeoutStep did now1),
                    jobs := db.jobs.map (setJobStatus record.jobId JobStatus.EXPIRED) }
          record hfind]
      simp only [hT2, hc]
      rw [if_neg Bool.false_ne_true]
      rw [map_map_self _ _ _ (setJobStatus_after_setJobStatus record.jobId JobStatus.EXPIRED)]
    case pos =>
      rw [if_pos hc]
      have hcancel : ∀ (wid : String) (nowc : Nat),
          (db.assignments.map (timeoutStep did now1)).map (cancelStep did wid nowc) =
            db.assignments.map (timeoutStep did now1) :=
        fun wid nowc => map_map_self _ _ _ (cancelStep_after_timeoutStep did wid now1 nowc)
      have hfind1 : ({ db with assignments := db.assignments.map (timeoutStep did now1) } : DB).distributions.find?
          (fun r => r.id == did) = some record := hfind
      have hdet1 := getDetail_step did
        { db with assignments := db.assignments.map (timeoutStep did now1) } record hfind1
      obtain ⟨a0, ha0, hprop0⟩ := List.any_eq_true.mp hc
      obtain ⟨ha0did, ha0c⟩ := Bool.and_eq_true_iff.mp hprop0
      have hmemL : toExecutionResult db.agents a0 ∈
          (distributionExecs did
            { db with assignments := db.assignments.map (timeoutStep did now1) }).filter
            (fun e => e.workStatus == AgentWorkStatus.COMPLETED) := by
        refine List.mem_filter.mpr ⟨?_, ha0c⟩
        exact List.mem_map_of_mem _ (List.mem_filter.mpr ⟨ha0, ha0did⟩)
      have hLne := List.ne_nil_of_mem hmemL
      obtain ⟨w, hwin, hwmem⟩ :=
        selectWinner_mem SelectionStrategy.first_completed _ hLne
      rw [selectBest_step did SelectionStrategy.first_completed now1
        { db with assignments := db.assignments.map (timeoutStep did now1) } _ hdet1]
      simp only [hwin, hcancel]
      have hfind2 : ({ db with
          jobs := db.jobs.map (setJobStatus record.jobId JobStatus.COMPLETED),
          distributions := db.distributions.map (winStep did w),
          assignments := db.assignments.map (timeoutStep did now1) } : DB).distributions.find?
          (fun r => r.id == did) = some (winStep did w record) := by
        show (db.distributions.map (winStep did w)).find? (fun r => r.id == did) = _
        rw [find?_map_winStep, hfind]
        rfl
      rw [handleTimeout_step did now2
        { db with
          jobs := db.jobs.map (setJobStatus record.jobId JobStatus.COMPLETED),
          distributions := db.distributions.map (winStep did w),
          assignments := db.assignments.map (timeoutStep did now1) }
        (winStep did w record) hfind2]
      simp only [hT2]
      rw [if_pos hc]
      have hdet2 := getDetail_step did
        { db with
          jobs := db.jobs.map (setJobStatus record.jobId JobStatus.COMPLETED),
          distributions := db.distributions.map (winStep did w),
          assignments := db.assignments.map (timeoutStep did now1) }
        (winStep did w record) hfind2
      rw [selectBest_step did SelectionStrategy.first_completed now2
        { db with
          jobs := db.jobs.map (setJobStatus record.jobId JobStatus.COMPLETED),
          distributions := db.distributions.map (winStep did w),
          assignments := db.assignments.map (timeoutStep did now1) }
        _ hdet2]
      have hwin2 : selectWinner SelectionStrategy.first_completed
          ((distributionExecs did
            { db with
              jobs := db.jobs.map (setJobStatus record.jobId JobStatus.COMPLETED),
              distributions := db.distributions.map (winStep did w),
              assignments := db.assignments.map (timeoutStep did now1) }).filter
            (fun e => e.workStatus == AgentWorkStatus.COMPLETED)) = some w := by
        have hexecs : distributionExecs did
            { db with
              jobs := db.jobs.map (setJobStatus record.jobId JobStatus.COMPLETED),
              distributions := db.distributions.map (winStep did w),
              assignments := db.assignments.map (timeoutStep did now1) } =
            distributionExecs did
            { db with assignments := db.assignments.map (timeoutStep did now1) } := rfl
        rw [hexecs]
        exact hwin
      simp only [hwin2, hcancel, winStep_jobId_eq]
      rw [map_map_self _ _ _ (winStep_after_winStep did w),
          map_map_self _ _ _ (setJobStatus_after_setJobStatus record.jobId JobStatus.COMPLETED)]
